import Mathlib

/-!
Shallow embedding of the dashboardr client-side filter engine
(second script of `src/attdat_dashboard/assets/tab-scroll-fix.js`, the
Interactive Input Filter System).

Modelling conventions:
* JavaScript numbers are rationals (`ℚ`); `NaN` is `none` in an `Option ℚ`.
* A JS primitive value is modelled by the two observations the engine uses:
  `String(v)` and its numeric coercion (`parseFloat`).
* JS objects used as string-keyed dictionaries are association lists kept in
  insertion order; overwriting a key keeps its position, as JS objects do.
* The Highcharts surface is an explicit state record per chart; calls such as
  `setData(..., false)` and `setVisible(..., false)` mutate the record without
  a redraw, and each `chart.redraw()` call increments a redraw counter.
-/

namespace Dashboardr

/-- Association-list lookup, i.e. reading `obj[k]` from a JS object
(`none` plays the role of `undefined`). -/
def alookup {α : Type} (l : List (String × α)) (k : String) : Option α :=
  (l.find? (fun p => p.1 == k)).map (fun p => p.2)

/-- Association-list write, i.e. `obj[k] = v` on a JS object: an existing key
keeps its position, a new key is appended. -/
def upsert {α : Type} (l : List (String × α)) (k : String) (v : α) : List (String × α) :=
  if l.any (fun p => p.1 == k) then
    l.map (fun p => if p.1 == k then (k, v) else p)
  else l ++ [(k, v)]

/-- Removing a key from a JS object (used to state what a map looks like
without a given binding). -/
def eraseKey {α : Type} (l : List (String × α)) (k : String) : List (String × α) :=
  l.filter (fun p => !(p.1 == k))

/-- First-seen-order deduplication, the semantics of `[...new Set(xs)]`. -/
def dedupFirst {α : Type} [DecidableEq α] (l : List α) : List α :=
  l.foldl (fun acc a => if acc.contains a then acc else acc ++ [a]) []

/-- Substring test on character lists, `needle` inside `hay`. -/
def listInfix {α : Type} [BEq α] : List α → List α → Bool
  | needle, [] => needle.isEmpty
  | needle, a :: l => needle.isPrefixOf (a :: l) || listInfix needle l

/-- JS `s.includes(needle)`. -/
def strIncludes (s needle : String) : Bool :=
  listInfix needle.toList s.toList

/-- JS `s.toLowerCase()`, modelled characterwise (exact on the ASCII and CJK
tokens this engine compares). -/
def jsToLower (s : String) : String :=
  String.mk (s.toList.map Char.toLower)

/-- JS `Math.round`: Mathlib `round` on `ℚ` rounds half upwards, exactly as
`Math.round` does on both positive and negative arguments. -/
def jsRound (q : ℚ) : ℤ :=
  round q

/-- Lexicographic order on character lists by code point, modelling the code
unit comparison of the default JS `Array.sort` comparator. -/
def lexLe : List Char → List Char → Bool
  | [], _ => true
  | _ :: _, [] => false
  | a :: s, b :: t =>
    if a.toNat < b.toNat then true
    else if b.toNat < a.toNat then false
    else lexLe s t

/-- An observed JavaScript primitive value: `str` is `String(v)` and `num` the
numeric reading `parseFloat(String(v))`, with `none` standing for `NaN`. -/
structure JSVal where
  str : String
  num : Option ℚ
deriving DecidableEq, Repr

/-- The value `undefined` as observed through `String` and `parseFloat`. -/
def jsUndefined : JSVal :=
  ⟨"undefined", none⟩

/-- JS strict equality `===` on data values; exact for same-kind primitive
values, which is how the dashboard supplies every compared field. -/
def jsEq (a b : JSVal) : Bool :=
  a == b

/-- Insertion of a value into a list sorted by the JS default comparator. -/
def insertByStr (a : JSVal) : List JSVal → List JSVal
  | [] => [a]
  | b :: l => if lexLe a.str.toList b.str.toList then a :: b :: l else b :: insertByStr a l

/-- JS `array.sort()` with the default (stringifying) comparator, as an
insertion sort. -/
def sortByStr (l : List JSVal) : List JSVal :=
  l.foldr insertByStr []

/-- One point of a series data array as supplied to the chart: JS `null`, a
bare number, or a point object with optional `x` and `y` fields. -/
inductive DataPoint where
  | null : DataPoint
  | num : ℚ → DataPoint
  | obj : Option ℚ → Option ℚ → DataPoint
deriving DecidableEq, Repr

/-- An entry of the `originalSeriesData` WeakMap: the deep-cloned data array
and the series name at capture time. -/
structure SeriesSnap where
  data : List DataPoint
  name : String
deriving DecidableEq, Repr

/-- The live state of one Highcharts series as far as the engine reads and
writes it. -/
structure SeriesState where
  name : String
  typ : String
  data : List DataPoint
  visible : Bool
  showInLegend : Bool
deriving DecidableEq, Repr

/-- A live series paired with its `originalSeriesData` entry (the WeakMap is
keyed by the series object, so the pairing is positional and stable). -/
structure SeriesEntry where
  live : SeriesState
  snap : Option SeriesSnap
deriving DecidableEq, Repr

/-- One flat record of a cross-tab table: the stringified value of each
column (`String(row[v])`) plus the count field `n`. -/
structure Row where
  fields : List (String × String)
  n : ℚ
deriving DecidableEq, Repr

/-- `String(row[v])`; a missing column reads as `"undefined"`. -/
def rowGet (r : Row) (v : String) : String :=
  ((r.fields.find? (fun p => p.1 == v)).map (fun p => p.2)).getD "undefined"

/-- The `config` part of a cross-tab entry. Absent orderings are supplied as
empty lists, matching the `xOrder && xOrder.length > 0` truthiness tests. -/
structure CrossTabConfig where
  xVar : String
  stackVar : String
  filterVars : List String
  stackedType : String
  stackOrder : List String
  xOrder : List String
deriving DecidableEq, Repr

/-- One entry of `window.dashboardrCrossTab`; `data` or `config` may be
missing, which makes `rebuildFromCrossTab` decline the chart. -/
structure CrossTabData where
  data : Option (List Row)
  config : Option CrossTabConfig
deriving DecidableEq, Repr

/-- One record of the `window.dashboardrMetricData` table: a `country` and
`metric` column (compared against series and metric names, so string-valued),
the remaining columns as observed JS values, and the `value` column. -/
structure MetricRow where
  country : String
  metric : String
  fields : List (String × JSVal)
  value : ℚ
deriving DecidableEq, Repr

/-- `d[v]` on a metric row; absent columns read as `undefined`. -/
def mrGet (d : MetricRow) (v : String) : JSVal :=
  ((d.fields.find? (fun p => p.1 == v)).map (fun p => p.2)).getD jsUndefined

/-- The global tables the engine consults: `window.dashboardrMetricData` and
`window.dashboardrTimeVar`. -/
structure Globals where
  metricData : Option (List MetricRow)
  timeVarCfg : Option String
deriving DecidableEq, Repr

/-- The state of one chart as far as the engine reads and writes it.
`crossTab` is the `window.dashboardrCrossTab` entry found under the chart id
(`none` when the chart has no id or no entry); `origCats` is the lazily
captured `chart._originalCategories`; `axisCats` is `chart.xAxis[0].categories`
(`none` for a category-less axis); `redraws` counts `chart.redraw()` calls. -/
structure ChartState where
  crossTab : Option CrossTabData
  origCats : Option (List JSVal)
  axisCats : Option (List JSVal)
  series : List SeriesEntry
  title : String
  subtitle : String
  yTitle : String
  legendEnabled : Bool
  redraws : Nat
deriving DecidableEq, Repr

/-- The supported control kinds. -/
inductive InputType where
  | select | checkbox | radio | switch | slider | text | number | button_group
deriving DecidableEq, Repr

/-- One `inputState` entry. Fields that a kind does not use keep their
defaults: `bval` is the boolean value of a switch, `nval` the numeric value of
a slider or number input, `sval` the string value of a text input; `min`,
`max`, `step` and `labels` belong to sliders; `toggleSeries` and `override`
to switches. -/
structure ControlState where
  filterVar : String
  inputType : InputType
  selected : List String := []
  bval : Bool := false
  nval : ℚ := 0
  sval : String := ""
  min : ℚ := 0
  max : ℚ := 0
  step : ℚ := 1
  labels : Option (List String) := none
  toggleSeries : Option String := none
  override : Bool := false
deriving DecidableEq, Repr

/-- The per-variable slider record assembled by `applyAllFilters`. -/
structure SliderInfo where
  value : ℚ
  min : ℚ
  max : ℚ
  step : ℚ
  labels : Option (List String)
deriving DecidableEq, Repr

/-- The filter dictionaries assembled at the top of `applyAllFilters`.
`switchFilters` and `numberFilters` are built by the source but never read
afterwards; they are carried for faithfulness. -/
structure FilterMaps where
  filters : List (String × List String) := []
  sliderFilters : List (String × SliderInfo) := []
  switchFilters : List (String × Bool) := []
  textFilters : List (String × String) := []
  numberFilters : List (String × ℚ) := []
  periodFilters : List (String × List String) := []
deriving DecidableEq, Repr

/-- The partition of `inputState` into the filter dictionaries
(`applyAllFilters` lines 646-671). The registry is the insertion-ordered list
of `(input id, state)` pairs iterated by `Object.keys(inputState)`. -/
def buildFilterMaps (controls : List (String × ControlState)) : FilterMaps :=
  controls.foldl (fun m kv =>
    let state := kv.2
    match state.inputType with
    | InputType.slider =>
      let info : SliderInfo :=
        ⟨state.nval, state.min, state.max, (if state.step = 0 then 1 else state.step), state.labels⟩
      { m with sliderFilters := upsert m.sliderFilters state.filterVar info }
    | InputType.switch =>
      { m with switchFilters := upsert m.switchFilters state.filterVar state.bval }
    | InputType.text =>
      if state.sval.trim ≠ "" then
        { m with textFilters := upsert m.textFilters state.filterVar (jsToLower state.sval.trim) }
      else m
    | InputType.number =>
      { m with numberFilters := upsert m.numberFilters state.filterVar state.nval }
    | _ =>
      if state.filterVar = "period" then
        { m with periodFilters := upsert m.periodFilters state.filterVar state.selected }
      else
        { m with filters := upsert m.filters state.filterVar state.selected })
    {}

/-- One period-preset narrowing step over the visible category indices
(`applyAllFilters` lines 712-732): the first selected value, unless falsy or
containing the literal token `All`, maps to a fixed year range; non-numeric
categories are always kept. -/
def applyPeriodFilter (cats : List JSVal) (selected : List String) (idxs : List Nat) : List Nat :=
  if selected.length > 0 then
    let periodValue := selected.headD ""
    if periodValue ≠ "" ∧ strIncludes periodValue "All" = false then
      idxs.filter (fun idx =>
        match (cats.getD idx jsUndefined).num with
        | none => true
        | some catNum =>
          if strIncludes periodValue "Pre-COVID" || strIncludes periodValue "2015-2019" then
            decide (2015 ≤ catNum ∧ catNum ≤ 2019)
          else if strIncludes periodValue "Post-COVID" || strIncludes periodValue "2020" then
            decide (2020 ≤ catNum)
          else true)
    else idxs
  else idxs

/-- One discrete-filter narrowing step over the visible category indices
(`applyAllFilters` lines 735-749): a nonempty selection that overlaps the
stringified category universe keeps exactly the selected categories. -/
def applyCategoryFilter (cats : List JSVal) (selectedValues : List String) (idxs : List Nat) : List Nat :=
  if selectedValues.length > 0 then
    let selectedStrings := selectedValues
    let categoryStrings := cats.map (fun c => c.str)
    let isCategoryFilter := selectedStrings.any (fun v => categoryStrings.contains v) ||
                            categoryStrings.any (fun c => selectedStrings.contains c)
    if isCategoryFilter then
      idxs.filter (fun idx => selectedStrings.contains (cats.getD idx jsUndefined).str)
    else idxs
  else idxs

/-- One slider narrowing step over the visible category indices
(`applyAllFilters` lines 752-780): with labels, the label under the slider
position selects a start category and indices from its first occurrence on
are kept; without labels, categories numerically below the slider value are
dropped (non-numeric ones kept). -/
def applySliderFilter (cats : List JSVal) (info : SliderInfo) (idxs : List Nat) : List Nat :=
  let numericFallback : List Nat :=
    idxs.filter (fun idx =>
      match (cats.getD idx jsUndefined).num with
      | some catNum => decide (info.value ≤ catNum)
      | none => true)
  match info.labels with
  | some ls =>
    if ls.length > 0 then
      let labelIdx : ℤ := jsRound ((info.value - info.min) / (if info.step = 0 then 1 else info.step))
      let startLabel : Option String := if labelIdx < 0 then none else ls.get? labelIdx.toNat
      match startLabel with
      | some lab =>
        if lab ≠ "" then
          match cats.findIdx? (fun cat => cat.str == lab) with
          | some startCategoryIdx => idxs.filter (fun idx => startCategoryIdx ≤ idx)
          | none => idxs
        else idxs
      | none => idxs
    else numericFallback
  | none => numericFallback

/-- The surviving category indices of a chart: the full index range of the
original categories, narrowed by the period, discrete and slider filters in
order; `[]` when the chart has no categories. -/
def computeVisibleIdxs (originalCategories : Option (List JSVal)) (m : FilterMaps) : List Nat :=
  match originalCategories with
  | none => []
  | some cats =>
    let idxs0 := List.range cats.length
    let idxs1 := m.periodFilters.foldl (fun idxs kv => applyPeriodFilter cats kv.2 idxs) idxs0
    let idxs2 := m.filters.foldl (fun idxs kv => applyCategoryFilter cats kv.2 idxs) idxs1
    m.sliderFilters.foldl (fun idxs kv => applySliderFilter cats kv.2 idxs) idxs2

/-- The surviving categories (`newCategories` at line 784). -/
def survivingCats (originalCategories : Option (List JSVal)) (m : FilterMaps) : List JSVal :=
  match originalCategories with
  | none => []
  | some cats => (computeVisibleIdxs originalCategories m).map (fun idx => cats.getD idx jsUndefined)

/-- The case-insensitive multilingual tokens meaning "do not filter". -/
def allLabels : List String :=
  ["all", "alle", "tous", "todo", "tutti", "すべて", "全部"]

/-- Whether a selection contains an `All`-like token (`rebuildFromCrossTab`
lines 1109-1111). -/
def hasAllOption (selectedValues : List String) : Bool :=
  selectedValues.any (fun v => allLabels.contains (jsToLower v))

/-- Row filtering of the cross-tab data (`rebuildFromCrossTab` lines
1105-1121): every filter variable with a nonempty selection not containing an
`All` token keeps only the rows whose stringified value is selected. -/
def crossTabFilterRows (data : List Row) (filterVars : List String)
    (filters : List (String × List String)) : List Row :=
  filterVars.foldl (fun filteredData filterVar =>
    match alookup filters filterVar with
    | some selectedValues =>
      if selectedValues.length > 0 then
        if hasAllOption selectedValues then filteredData
        else filteredData.filter (fun row => selectedValues.contains (rowGet row filterVar))
      else filteredData
    | none => filteredData) data

/-- An entry of the `summed` object of `rebuildFromCrossTab`: the x and stack
values of the first row hashed to this key, and the accumulated count. -/
structure SummedItem where
  xVal : String
  stackVal : String
  n : ℚ
deriving DecidableEq, Repr

/-- Step 2 of `rebuildFromCrossTab` (lines 1124-1134): accumulate counts in a
dictionary keyed by the string `xVal + '|||' + stackVal`. -/
def buildSummed (filteredData : List Row) (xVar stackVar : String) :
    List (String × SummedItem) :=
  filteredData.foldl (fun summed row =>
    let xVal := rowGet row xVar
    let stackVal := rowGet row stackVar
    let key := xVal ++ "|||" ++ stackVal
    match alookup summed key with
    | some item => upsert summed key ⟨item.xVal, item.stackVal, item.n + row.n⟩
    | none => upsert summed key ⟨xVal, stackVal, row.n⟩) []

/-- Step 3 of `rebuildFromCrossTab` (lines 1137-1143): reorganize the summed
counts as a dictionary from x value to a dictionary from stack value to
count. -/
def buildByX (summed : List (String × SummedItem)) :
    List (String × List (String × ℚ)) :=
  summed.foldl (fun byX kv =>
    let item := kv.2
    let inner := (alookup byX item.xVal).getD []
    upsert byX item.xVal (upsert inner item.stackVal item.n)) []

/-- `xTotals[xVal]` (lines 1146-1149): the sum of the stack counts stored
under an x value, `0` when the x value is absent (where the source reads
`undefined`, which then fails the `> 0` test just as `0` does). -/
def xTotalAt (byX : List (String × List (String × ℚ))) (xVal : String) : ℚ :=
  (((alookup byX xVal).getD []).map (fun p => p.2)).sum

/-- One emitted series value (lines 1164-1170): the stored count (`0` when
missing or stored as the falsy `0`), divided into its x bucket total in
percent mode when that total is positive. -/
def seriesValueAt (byX : List (String × List (String × ℚ))) (xVal stackVal : String)
    (isPercent : Bool) : ℚ :=
  let count : ℚ := ((alookup byX xVal).bind (fun inner => alookup inner stackVal)).getD 0
  if isPercent ∧ xTotalAt byX xVal > 0 then (count / xTotalAt byX xVal) * 100 else count

/-- The emitted x order (line 1153): the external `xOrder` when nonempty, else
the keys of `byX` in insertion order, which is the first-seen order of x
values in the filtered rows. -/
def orderedXOf (cfg : CrossTabConfig) (byX : List (String × List (String × ℚ))) : List String :=
  if cfg.xOrder.length > 0 then cfg.xOrder else byX.map (fun p => p.1)

/-- The emitted stack order (lines 1154-1155): the external `stackOrder` when
nonempty, else the distinct stack values of the summed entries in first-seen
order. -/
def orderedStackOf (cfg : CrossTabConfig) (summed : List (String × SummedItem)) : List String :=
  if cfg.stackOrder.length > 0 then cfg.stackOrder
  else dedupFirst (summed.map (fun kv => kv.2.stackVal))

/-- `parseFloat` on the plain string labels a cross-tab rebuild places on the
x axis; exact for integer-formatted labels, and never consumed afterwards
because cross-tab charts are always re-dispatched to the rebuild path. -/
def jsParseInt? (s : String) : Option ℚ :=
  (s.toInt?).map (fun n => (n : ℚ))

/-- One series update of the cross-tab rebuild (lines 1163-1181): the series
is found by name first, else by position, and its data replaced. The lookup
is against the live series array, whose length and names `setData` never
changes, so it is stated against the pre-update name list. -/
def rebuildStep (names : List String) (dataFor : String → List DataPoint)
    (seriesList : List SeriesEntry) (p : Nat × String) : List SeriesEntry :=
  let seriesIdx := p.1
  let stackVal := p.2
  let target : Option Nat :=
    match names.findIdx? (fun n => n == stackVal) with
    | some i => some i
    | none => if seriesIdx < names.length then some seriesIdx else none
  match target with
  | some i =>
    match seriesList.get? i with
    | some e => seriesList.set i { e with live := { e.live with data := dataFor stackVal } }
    | none => seriesList
  | none => seriesList

/-- `rebuildFromCrossTab` (lines 1079-1187): filter the raw rows, aggregate
counts by (x, stack), emit raw or percent values per ordered stack into the
matching series (by name first, then by position), set the x categories and
redraw. Returns `none` exactly when the source returns `false` (missing data
or config), in which case the caller falls through to normal filtering. -/
def rebuildFromCrossTab (chart : ChartState) (crossTabEntry : CrossTabData)
    (filters : List (String × List String)) : Option ChartState :=
  match crossTabEntry.data, crossTabEntry.config with
  | some data, some config =>
    let filteredData := crossTabFilterRows data config.filterVars filters
    let summed := buildSummed filteredData config.xVar config.stackVar
    let byX := buildByX summed
    let isPercent := config.stackedType == "percent"
    let orderedX := orderedXOf config byX
    let orderedStack := orderedStackOf config summed
    let names := chart.series.map (fun e => e.live.name)
    let newSeries := (orderedStack.enum).foldl
      (rebuildStep names (fun stackVal =>
        orderedX.map (fun xVal => DataPoint.num (seriesValueAt byX xVal stackVal isPercent))))
      chart.series
    some { chart with
      axisCats := some (orderedX.map (fun s => ⟨s, jsParseInt? s⟩)),
      series := newSeries,
      redraws := chart.redraws + 1 }
  | _, _ => none

/-- Auto-detection of the time variable of the metric table (lines 824-827):
the first of `year`, `decade`, `time`, `date` present on the first record.
The source would throw on an empty table; this is modelled as no detected
time variable. -/
def autoDetectTimeVar (allData : List MetricRow) : Option String :=
  match allData.head? with
  | none => none
  | some d0 =>
    if (d0.fields.find? (fun p => p.1 == "year")).isSome then some "year"
    else if (d0.fields.find? (fun p => p.1 == "decade")).isSome then some "decade"
    else if (d0.fields.find? (fun p => p.1 == "time")).isSome then some "time"
    else if (d0.fields.find? (fun p => p.1 == "date")).isSome then some "date"
    else none

/-- `window.dashboardrTimeVar || autodetect` with JS truthiness on the
configured name. -/
def detectTimeVar (g : Globals) (allData : List MetricRow) : Option String :=
  match g.timeVarCfg with
  | some tv => if tv ≠ "" then some tv else autoDetectTimeVar allData
  | none => autoDetectTimeVar allData

/-- The rebuilt data of one series in the metric branch (lines 833-845):
`none` when the series has no rows for the selected metric (then the series
is left untouched), else one value or `null` per time value. -/
def metricNewData (allData : List MetricRow) (selectedMetric : String)
    (timeVar : Option String) (timeValues : List JSVal) (seriesName : String) :
    Option (List DataPoint) :=
  let countryData := allData.filter (fun d => d.country == seriesName && d.metric == selectedMetric)
  if countryData.length > 0 then
    some (timeValues.map (fun timeVal =>
      match timeVar with
      | some tv =>
        match countryData.find? (fun d => jsEq (mrGet d tv) timeVal) with
        | some point => DataPoint.num point.value
        | none => DataPoint.null
      | none => DataPoint.null))
  else none

/-- Whether the metric branch of `applyAllFilters` runs: a `metric` binding
present in the discrete filter map (even an empty one is truthy), a metric
table present, and a truthy first selected value. -/
def metricActive (g : Globals) (m : FilterMaps) : Bool :=
  match alookup m.filters "metric", g.metricData with
  | some selectedValues, some _ => selectedValues.headD "" ≠ ""
  | _, _ => false

/-- The time axis of the metric branch (lines 829-831): the chart categories
when present, else the sorted distinct values of the time column. -/
def metricTimeValues (g : Globals) (allData : List MetricRow)
    (originalCategories : Option (List JSVal)) : List JSVal :=
  match originalCategories with
  | some cats => cats
  | none =>
    match detectTimeVar g allData with
    | some tv => sortByStr (dedupFirst (allData.map (fun d => mrGet d tv)))
    | none => []

/-- The metric branch (lines 814-866): when active, rebuild each matched
series from the metric table, overwrite its `originalSeriesData` entry with
the rebuilt data, and update the chart titles. -/
def applyMetricStep (g : Globals) (m : FilterMaps)
    (originalCategories : Option (List JSVal)) (chart : ChartState) : ChartState :=
  match alookup m.filters "metric", g.metricData with
  | some selectedValues, some allData =>
    let selectedMetric := selectedValues.headD ""
    if selectedMetric ≠ "" then
      let timeVar := detectTimeVar g allData
      let timeValues := metricTimeValues g allData originalCategories
      let newEntries := chart.series.map (fun e =>
        match metricNewData allData selectedMetric timeVar timeValues e.live.name with
        | some newData =>
          { live := { e.live with data := newData },
            snap := some ⟨newData, e.live.name⟩ }
        | none => e)
      { chart with
        series := newEntries,
        title := selectedMetric ++ " by Country",
        subtitle := "Trends over time",
        yTitle := selectedMetric }
    else chart
  | _, _ => chart

/-- The set of series names forced hidden by a switch that is off
(lines 869-882). -/
def switchHiddenSeries (controls : List (String × ControlState)) : List String :=
  controls.foldl (fun acc kv =>
    let state := kv.2
    if state.inputType = InputType.switch then
      match state.toggleSeries with
      | some ts => if ts ≠ "" ∧ state.bval = false then acc ++ [ts] else acc
      | none => acc
    else acc) []

/-- The set of series names forced shown by a switch that is on with the
override flag (lines 869-882). -/
def switchShownSeries (controls : List (String × ControlState)) : List String :=
  controls.foldl (fun acc kv =>
    let state := kv.2
    if state.inputType = InputType.switch then
      match state.toggleSeries with
      | some ts => if ts ≠ "" ∧ state.bval = true ∧ state.override = true then acc ++ [ts] else acc
      | none => acc
    else acc) []

/-- Series-level visibility from text and discrete filters (lines 901-927):
a text filter that matches some series name must match this one; a discrete
filter whose selection overlaps the series-name universe must select this
name. -/
def seriesShouldShow (m : FilterMaps) (seriesNames : List String) (seriesName : String) : Bool :=
  let afterText := m.textFilters.foldl (fun showSeries kv =>
    let searchText := kv.2
    if seriesNames.any (fun n => strIncludes (jsToLower n) searchText) then
      if strIncludes (jsToLower seriesName) searchText then showSeries else false
    else showSeries) true
  m.filters.foldl (fun showSeries kv =>
    let selectedValues := kv.2
    if selectedValues.length > 0 then
      let isSeriesFilter := selectedValues.any (fun v => seriesNames.contains v) ||
                            seriesNames.any (fun n => selectedValues.contains n)
      if isSeriesFilter then
        if selectedValues.contains seriesName then showSeries else false
      else showSeries
    else showSeries) afterText

/-- The numeric-x-axis data path (lines 949-963): starting from the snapshot
data, every slider filter drops `null` points and object points whose `x` is
below the slider value; bare numbers (whose `xVal` reads as `null`) are
kept. -/
def filterNumericData (m : FilterMaps) (snapData : List DataPoint) : List DataPoint :=
  m.sliderFilters.foldl (fun filteredData kv =>
    let info := kv.2
    filteredData.filter (fun point =>
      match point with
      | DataPoint.null => false
      | DataPoint.num _ => true
      | DataPoint.obj x _ =>
        match x with
        | some xVal => decide (¬ xVal < info.value)
        | none => true)) snapData

/-- The per-series body of the main loop (lines 884-965): switch-hidden
series are hidden and delegended before any data work; otherwise the series
is shown when switch-forced or when `seriesShouldShow` holds (else hidden
with its data left alone), and a shown series with a snapshot has its data
rebuilt from the snapshot at the surviving category indices, or run through
the numeric-x filter when the chart has no categories. -/
def processSeriesEntry (m : FilterMaps) (seriesNames : List String)
    (hidden shown : List String) (originalCategories : Option (List JSVal))
    (visibleCategoryIndices : List Nat) (hasNumericXAxis : Bool)
    (e : SeriesEntry) : SeriesEntry :=
  let seriesName := e.live.name
  if hidden.contains seriesName then
    { e with live := { e.live with visible := false, showInLegend := false } }
  else if shown.contains seriesName || seriesShouldShow m seriesNames seriesName then
    let live1 := { e.live with visible := true, showInLegend := true }
    match e.snap, originalCategories with
    | some original, some _ =>
      let filteredData := visibleCategoryIndices.map (fun idx => original.data.getD idx DataPoint.null)
      { e with live := { live1 with data := filteredData } }
    | some original, none =>
      if hasNumericXAxis then
        { e with live := { live1 with data := filterNumericData m original.data } }
      else { e with live := live1 }
    | none, _ => { e with live := live1 }
  else
    { e with live := { e.live with visible := false, showInLegend := false } }

/-- The chart-type step (lines 797-812): a truthy `chart_type` selection maps
through the fixed type table (defaulting to `line`) onto every series. -/
def applyChartTypeStep (series : List SeriesEntry)
    (filters : List (String × List String)) : List SeriesEntry :=
  filters.foldl (fun series kv =>
    if kv.1 == "chart_type" then
      let chartType := kv.2.headD ""
      if chartType ≠ "" then
        let hcType := if chartType == "Line" then "line"
          else if chartType == "Area" then "area"
          else if chartType == "Column" then "column" else "line"
        series.map (fun e => { e with live := { e.live with typ := hcType } })
      else series
    else series) series

/-- The `show_legend` switch step (lines 787-794). -/
def applyShowLegend (controls : List (String × ControlState)) (legendEnabled : Bool) : Bool :=
  controls.foldl (fun acc kv =>
    if kv.2.inputType = InputType.switch ∧ kv.2.filterVar = "show_legend" then kv.2.bval
    else acc) legendEnabled

/-- The lazily captured original categories after the capture step, i.e.
`chart._originalCategories || chart.xAxis[0].categories` (lines 687-694). -/
def ocOf (chart : ChartState) : Option (List JSVal) :=
  match chart.origCats with
  | some cats => some cats
  | none => chart.axisCats

/-- The normal (non-cross-tab) body of the per-chart loop of
`applyAllFilters` (lines 687-972). The `hasNumericXAxis` test reads
`chart.series[0].data[0].x`: live Highcharts points always expose a numeric
`x` (assigned from the position when the raw datum is a bare number), so the
`typeof` test reduces to the existence of a first point of the first
series. -/
def normalFilterChart (g : Globals) (controls : List (String × ControlState))
    (m : FilterMaps) (chart0 : ChartState) : ChartState :=
  let chart := if chart0.origCats.isNone ∧ chart0.axisCats.isSome then
      { chart0 with origCats := chart0.axisCats } else chart0
  let originalCategories := ocOf chart
  let hasNumericXAxis : Bool :=
    originalCategories.isNone &&
      (match chart.series.head? with
       | some e0 => decide (e0.live.data.length > 0)
       | none => false)
  let seriesNames := chart.series.map (fun e => e.live.name)
  let visibleCategoryIndices := computeVisibleIdxs originalCategories m
  let newCategories := survivingCats originalCategories m
  let legendEnabled := applyShowLegend controls chart.legendEnabled
  let entries1 := applyChartTypeStep chart.series m.filters
  let chartM := applyMetricStep g m originalCategories
    { chart with series := entries1, legendEnabled := legendEnabled }
  let hidden := switchHiddenSeries controls
  let shown := switchShownSeries controls
  let entries2 := chartM.series.map
    (processSeriesEntry m seriesNames hidden shown originalCategories visibleCategoryIndices hasNumericXAxis)
  let newAxis := if originalCategories.isSome ∧ newCategories.length > 0 then some newCategories
    else chartM.axisCats
  { chartM with series := entries2, axisCats := newAxis, redraws := chartM.redraws + 1 }

/-- The per-chart body of `applyAllFilters` (lines 673-973): charts with a
cross-tab entry are rebuilt from it and skipped by the normal path unless the
entry is unusable. -/
def applyChart (g : Globals) (controls : List (String × ControlState))
    (m : FilterMaps) (chart : ChartState) : ChartState :=
  match chart.crossTab with
  | some crossTabEntry =>
    match rebuildFromCrossTab chart crossTabEntry m.filters with
    | some chart1 => chart1
    | none => normalFilterChart g controls m chart
  | none => normalFilterChart g controls m chart

/-- `applyAllFilters` (lines 628-974): assemble the filter dictionaries once
and process every live chart. -/
def applyAllFilters (g : Globals) (controls : List (String × ControlState))
    (charts : List ChartState) : List ChartState :=
  let m := buildFilterMaps controls
  charts.map (applyChart g controls m)

/-- `storeOriginalData` (lines 605-623): deep-clone the data of every series
that has no `originalSeriesData` entry yet. -/
def storeOriginalData (chart : ChartState) : ChartState :=
  { chart with series := chart.series.map (fun e =>
      match e.snap with
      | some _ => e
      | none => { e with snap := some ⟨e.live.data, e.live.name⟩ }) }

/-- A `defaultValues` entry: the captured default of a control, shaped by its
kind (a selection list for select, checkbox, radio and button groups, a
boolean for switches, a number for sliders and number inputs, a string for
text inputs). -/
inductive DefaultValue where
  | sel : List String → DefaultValue
  | bval : Bool → DefaultValue
  | nval : ℚ → DefaultValue
  | sval : String → DefaultValue
deriving DecidableEq, Repr

/-- The DOM state of one control as far as `resetFilters` reads and writes
it: option `selected` flags, checkbox and radio `checked` flags, a switch
`checked` flag, a slider value together with its constant `min`/`max`
attributes, displayed label and track fill, plain input values, and button
`active` classes. -/
inductive DomState where
  | selectDom : List (String × Bool) → DomState
  | checkboxDom : List (String × Bool) → DomState
  | radioDom : List (String × Bool) → DomState
  | switchDom : Bool → DomState
  | sliderDom : ℚ → Option ℚ → Option ℚ → String → ℚ → DomState
  | textDom : String → DomState
  | numberDom : ℚ → DomState
  | buttonGroupDom : List (String × Bool) → DomState
deriving DecidableEq, Repr

/-- JS decimal rendering of a number (`String(v)`), exact for the integers
that sliders and number inputs carry in this dashboard. -/
def jsNumToString (q : ℚ) : String :=
  if q.den = 1 then toString q.num else toString q.num ++ "/" ++ toString q.den

/-- `updateSliderDisplay` (lines 405-420): with labels, the label under the
rounded position when in range, else the numeric value. A zero step makes
the JS index `Infinity` or `NaN`, which always fails the range test. -/
def updateSliderDisplayText (labels : Option (List String)) (value minv stepv : ℚ) : String :=
  match labels with
  | some ls =>
    if ls.length > 0 then
      if stepv = 0 then jsNumToString value
      else
        let idx := jsRound ((value - minv) / stepv)
        if 0 ≤ idx ∧ idx.toNat < ls.length then ls.getD idx.toNat "" else jsNumToString value
    else jsNumToString value
  | none => jsNumToString value

/-- `updateSliderTrack` (lines 562-568): the fill percentage from the
element's `min`/`max` attributes with `|| 0` and `|| 100` fallbacks. -/
def updateSliderTrackPercent (minAttr maxAttr : Option ℚ) (value : ℚ) : ℚ :=
  let mn := match minAttr with
    | some q => if q = 0 then 0 else q
    | none => 0
  let mx := match maxAttr with
    | some q => if q = 0 then 100 else q
    | none => 100
  (value - mn) / (mx - mn) * 100

/-- The body of the per-target loop of `resetFilters` (lines 1011-1065),
restoring one control state and its DOM element from its default. Shape
mismatches between kind, default and DOM cannot arise from the registry the
system builds and are left unchanged. The non-Choices DOM paths are
modelled; the Choices path restores the same selection. -/
def resetEntry (dfl : DefaultValue) (state : ControlState) (dom : DomState) :
    ControlState × DomState :=
  match state.inputType, dfl with
  | InputType.select, DefaultValue.sel vals =>
    let dom1 := match dom with
      | DomState.selectDom opts => DomState.selectDom (opts.map (fun p => (p.1, vals.contains p.1)))
      | d => d
    ({ state with selected := vals }, dom1)
  | InputType.checkbox, DefaultValue.sel vals =>
    let dom1 := match dom with
      | DomState.checkboxDom boxes => DomState.checkboxDom (boxes.map (fun p => (p.1, vals.contains p.1)))
      | d => d
    ({ state with selected := vals }, dom1)
  | InputType.radio, DefaultValue.sel vals =>
    let dom1 := match dom with
      | DomState.radioDom radios => DomState.radioDom (radios.map (fun p => (p.1, vals.contains p.1)))
      | d => d
    ({ state with selected := vals }, dom1)
  | InputType.switch, DefaultValue.bval b =>
    let dom1 := match dom with
      | DomState.switchDom _ => DomState.switchDom b
      | d => d
    ({ state with bval := b, selected := if b then ["true"] else ["false"] }, dom1)
  | InputType.slider, DefaultValue.nval q =>
    let dom1 := match dom with
      | DomState.sliderDom _ minAttr maxAttr _ _ =>
        DomState.sliderDom q minAttr maxAttr
          (updateSliderDisplayText state.labels q state.min state.step)
          (updateSliderTrackPercent minAttr maxAttr q)
      | d => d
    ({ state with nval := q, selected := [jsNumToString q] }, dom1)
  | InputType.text, DefaultValue.sval s =>
    let dom1 := match dom with
      | DomState.textDom _ => DomState.textDom s
      | d => d
    ({ state with sval := s, selected := [s] }, dom1)
  | InputType.number, DefaultValue.nval q =>
    let dom1 := match dom with
      | DomState.numberDom _ => DomState.numberDom q
      | d => d
    ({ state with nval := q, selected := [jsNumToString q] }, dom1)
  | InputType.button_group, DefaultValue.sel vals =>
    let dom1 := match dom with
      | DomState.buttonGroupDom btns => DomState.buttonGroupDom (btns.map (fun p => (p.1, vals.contains p.1)))
      | d => d
    ({ state with selected := vals }, dom1)
  | _, _ => (state, dom)

/-- A pointwise registry: `inputState`, `defaultValues` and the document are
string-keyed tables, read and written one id at a time by `resetFilters`. -/
def Registry : Type :=
  (String → Option ControlState) × (String → Option DomState)

/-- `resetFilters` (lines 1006-1068) on its targets (either the listed ids or
every id of `defaultValues`): restore each resolvable target, skipping ids
with a missing default, state or element. The trailing `applyAllFilters()`
call touches only charts, never the registry or the DOM controls. -/
def resetFilters (targets : List String) (defaultValues : String → Option DefaultValue)
    (reg : Registry) : Registry :=
  targets.foldl (fun acc inputId =>
    match defaultValues inputId, acc.1 inputId, acc.2 inputId with
    | some dfl, some state, some dom =>
      let r := resetEntry dfl state dom
      (fun id => if id = inputId then some r.1 else acc.1 id,
       fun id => if id = inputId then some r.2 else acc.2 id)
    | _, _, _ => acc) reg

/-! Projection lemmas for the per-chart pipeline. -/

theorem ocOf_capture (c : ChartState) :
    ocOf (if c.origCats.isNone ∧ c.axisCats.isSome then { c with origCats := c.axisCats } else c)
      = ocOf c := by
  by_cases h : c.origCats.isNone ∧ c.axisCats.isSome
  · rw [if_pos h]
    rcases h with ⟨h1, h2⟩
    cases hc : c.origCats with
    | some o => rw [hc] at h1; simp at h1
    | none =>
      simp only [ocOf, hc]
      cases c.axisCats <;> rfl
  · rw [if_neg h]

theorem capture_axisCats (c : ChartState) :
    (if c.origCats.isNone ∧ c.axisCats.isSome then { c with origCats := c.axisCats } else c).axisCats
      = c.axisCats := by
  by_cases h : c.origCats.isNone ∧ c.axisCats.isSome
  · rw [if_pos h]
  · rw [if_neg h]

theorem capture_redraws (c : ChartState) :
    (if c.origCats.isNone ∧ c.axisCats.isSome then { c with origCats := c.axisCats } else c).redraws
      = c.redraws := by
  by_cases h : c.origCats.isNone ∧ c.axisCats.isSome
  · rw [if_pos h]
  · rw [if_neg h]

theorem applyMetricStep_axisCats (g : Globals) (m : FilterMaps)
    (oc : Option (List JSVal)) (c : ChartState) :
    (applyMetricStep g m oc c).axisCats = c.axisCats := by
  unfold applyMetricStep
  cases alookup m.filters "metric" <;> cases g.metricData <;> simp only []
  split <;> rfl

theorem applyMetricStep_redraws (g : Globals) (m : FilterMaps)
    (oc : Option (List JSVal)) (c : ChartState) :
    (applyMetricStep g m oc c).redraws = c.redraws := by
  unfold applyMetricStep
  cases alookup m.filters "metric" <;> cases g.metricData <;> simp only []
  split <;> rfl

theorem normalFilterChart_axisCats (g : Globals) (controls : List (String × ControlState))
    (m : FilterMaps) (c : ChartState) :
    (normalFilterChart g controls m c).axisCats =
      if (ocOf c).isSome ∧ (survivingCats (ocOf c) m).length > 0
      then some (survivingCats (ocOf c) m) else c.axisCats := by
  unfold normalFilterChart
  simp only [ocOf_capture, applyMetricStep_axisCats, capture_axisCats]

theorem normalFilterChart_redraws (g : Globals) (controls : List (String × ControlState))
    (m : FilterMaps) (c : ChartState) :
    (normalFilterChart g controls m c).redraws = c.redraws + 1 := by
  unfold normalFilterChart
  simp only [applyMetricStep_redraws, capture_redraws]

/-! Claim C4: category label update and single redraw. -/

/-- A chart with one original category `2014` and no cross-tab entry. -/
def chartYear2014 : ChartState :=
  { crossTab := none, origCats := none, axisCats := some [⟨"2014", some 2014⟩],
    series := [⟨⟨"A", "line", [DataPoint.num 1], true, true⟩, none⟩],
    title := "", subtitle := "", yTitle := "", legendEnabled := true, redraws := 0 }

/-- A registry holding one period radio selecting the `2015-2019` preset. -/
def periodOnlyControls : List (String × ControlState) :=
  [("p", { filterVar := "period", inputType := InputType.radio, selected := ["2015-2019"] })]

/-- C4, counterexample: on a chart whose only category is `2014`, the period
preset `2015-2019` leaves no surviving category, yet the x-axis labels are
not updated to the empty subset: the source guards the update with
`newCategories.length > 0`, so the stale label `2014` stays. -/
theorem applyChart_empty_survivors_keeps_labels :
    survivingCats (ocOf chartYear2014) (buildFilterMaps periodOnlyControls) = [] ∧
    (applyChart ⟨none, none⟩ periodOnlyControls (buildFilterMaps periodOnlyControls)
        chartYear2014).axisCats ≠ some [] ∧
    (applyChart ⟨none, none⟩ periodOnlyControls (buildFilterMaps periodOnlyControls)
        chartYear2014).axisCats = chartYear2014.axisCats := by
  refine ⟨by decide, by decide, by decide⟩

/-- C4 (amended): for every chart handled by the normal filter path, filter
application sets the x-axis labels to exactly the surviving category subset
whenever that subset is nonempty, leaves the labels unchanged when the
surviving subset is empty (or the chart has no categories), and issues
exactly one redraw. -/
theorem applyChart_updates_categories_and_redraws_once (g : Globals)
    (controls : List (String × ControlState)) (m : FilterMaps) (chart : ChartState)
    (hct : chart.crossTab = none) :
    (survivingCats (ocOf chart) m ≠ [] →
      (applyChart g controls m chart).axisCats = some (survivingCats (ocOf chart) m)) ∧
    (survivingCats (ocOf chart) m = [] →
      (applyChart g controls m chart).axisCats = chart.axisCats) ∧
    (applyChart g controls m chart).redraws = chart.redraws + 1 := by
  have happ : applyChart g controls m chart = normalFilterChart g controls m chart := by
    unfold applyChart
    rw [hct]
  rw [happ]
  refine ⟨?_, ?_, normalFilterChart_redraws g controls m chart⟩
  · intro hne
    rw [normalFilterChart_axisCats]
    have hoc : (ocOf chart).isSome := by
      cases hx : ocOf chart with
      | none => exact absurd (by simp [survivingCats, hx]) hne
      | some cats => rfl
    rw [if_pos ⟨hoc, List.length_pos.mpr hne⟩]
  · intro he
    rw [normalFilterChart_axisCats, he]
    simp

/-- C4, witness for the amended theorem at the concrete chart above. -/
theorem applyChart_updates_categories_witness :
    (applyChart ⟨none, none⟩ periodOnlyControls (buildFilterMaps periodOnlyControls)
        chartYear2014).axisCats = chartYear2014.axisCats ∧
    (applyChart ⟨none, none⟩ periodOnlyControls (buildFilterMaps periodOnlyControls)
        chartYear2014).redraws = chartYear2014.redraws + 1 :=
  ⟨(applyChart_updates_categories_and_redraws_once ⟨none, none⟩ periodOnlyControls
      (buildFilterMaps periodOnlyControls) chartYear2014 (by decide)).2.1 (by decide),
   (applyChart_updates_categories_and_redraws_once ⟨none, none⟩ periodOnlyControls
      (buildFilterMaps periodOnlyControls) chartYear2014 (by decide)).2.2⟩

/-! Claim C5: period preset filtering. -/

/-- The category list `[2014, 2015, 2016, 2020, 2021]` of the claim. -/
def catsPeriodDemo : List JSVal :=
  [⟨"2014", some 2014⟩, ⟨"2015", some 2015⟩, ⟨"2016", some 2016⟩,
   ⟨"2020", some 2020⟩, ⟨"2021", some 2021⟩]

/-- Filter maps holding exactly one active period filter with one selected
value. -/
def periodMaps (pv : String) : FilterMaps :=
  { periodFilters := [("period", [pv])] }

/-- C5, counterexample: a selected period value containing `2015-2019` does
not always narrow to `[2015, 2016]`: the `All` test runs first, so the value
`All 2015-2019` (which contains both tokens) is a no-op and every category
survives. -/
theorem periodPreset_counterexample :
    strIncludes "All 2015-2019" "2015-2019" = true ∧
    survivingCats (some catsPeriodDemo) (periodMaps "All 2015-2019")
      ≠ [⟨"2015", some 2015⟩, ⟨"2016", some 2016⟩] ∧
    survivingCats (some catsPeriodDemo) (periodMaps "All 2015-2019") = catsPeriodDemo := by
  refine ⟨by decide, by decide, by decide⟩

/-- C5 (amended): on categories `[2014, 2015, 2016, 2020, 2021]`, a period
value containing `2015-2019` and not containing `All` survives exactly
`[2015, 2016]`; a value containing the literal token `All` is a no-op; a
value containing `2020` and containing none of the earlier-matched tokens
`All`, `Pre-COVID`, `2015-2019` survives exactly the categories `≥ 2020`. -/
theorem periodPreset_filtering (pv : String) :
    (strIncludes pv "2015-2019" = true → strIncludes pv "All" = false →
      survivingCats (some catsPeriodDemo) (periodMaps pv)
        = [⟨"2015", some 2015⟩, ⟨"2016", some 2016⟩]) ∧
    (strIncludes pv "All" = true →
      survivingCats (some catsPeriodDemo) (periodMaps pv) = catsPeriodDemo) ∧
    (strIncludes pv "2020" = true → strIncludes pv "All" = false →
      strIncludes pv "Pre-COVID" = false → strIncludes pv "2015-2019" = false →
      survivingCats (some catsPeriodDemo) (periodMaps pv)
        = [⟨"2020", some 2020⟩, ⟨"2021", some 2021⟩]) := by
  refine ⟨?_, ?_, ?_⟩
  · intro h1 h2
    have hpv : pv ≠ "" := by
      intro hpv
      rw [hpv] at h1
      exact absurd h1 (by decide)
    simp [survivingCats, computeVisibleIdxs, periodMaps, applyPeriodFilter, h1, h2, hpv,
      catsPeriodDemo, jsUndefined, List.range, List.range.loop]
    decide
  · intro h1
    simp [survivingCats, computeVisibleIdxs, periodMaps, applyPeriodFilter, h1,
      catsPeriodDemo, jsUndefined, List.range, List.range.loop]
  · intro h1 h2 h3 h4
    have hpv : pv ≠ "" := by
      intro hpv
      rw [hpv] at h1
      exact absurd h1 (by decide)
    simp [survivingCats, computeVisibleIdxs, periodMaps, applyPeriodFilter, h1, h2, h3, h4, hpv,
      catsPeriodDemo, jsUndefined, List.range, List.range.loop]
    decide

/-- C5, witness for the amended theorem at the three example values. -/
theorem periodPreset_witness :
    survivingCats (some catsPeriodDemo) (periodMaps "2015-2019")
      = [⟨"2015", some 2015⟩, ⟨"2016", some 2016⟩] ∧
    survivingCats (some catsPeriodDemo) (periodMaps "All years") = catsPeriodDemo ∧
    survivingCats (some catsPeriodDemo) (periodMaps "2020")
      = [⟨"2020", some 2020⟩, ⟨"2021", some 2021⟩] :=
  ⟨(periodPreset_filtering "2015-2019").1 (by decide) (by decide),
   (periodPreset_filtering "All years").2.1 (by decide),
   (periodPreset_filtering "2020").2.2 (by decide) (by decide) (by decide) (by decide)⟩

/-! Claim C6: slider filtering. -/

/-- Keeping the indices from `k` on out of the full index range selects the
suffix of the category list from position `k`. -/
theorem filter_range_le_eq_range' (n k : Nat) :
    (List.range n).filter (fun i => decide (k ≤ i)) = List.range' k (n - k) := by
  induction n with
  | zero => simp
  | succ n ih =>
    rw [List.range_succ n, List.filter_append, ih]
    by_cases h : k ≤ n
    · have h1 : n + 1 - k = (n - k) + 1 := by omega
      have h2 : k + (n - k) = n := by omega
      rw [h1, List.range'_1_concat, h2]
      simp [h]
    · have h1 : n + 1 - k = 0 := by omega
      have h2 : n - k = 0 := by omega
      simp [h1, h2, h]

/-- Reading a category list at the indices `k, k+1, ...` yields its suffix
from position `k`. -/
theorem map_getD_range'_eq_drop (cats : List JSVal) (k : Nat) :
    (List.range' k (cats.length - k)).map (fun i => cats.getD i jsUndefined) = cats.drop k := by
  apply List.ext_get?
  intro i
  rw [List.get?_map, List.get?_drop]
  by_cases h : i < cats.length - k
  · rw [List.get?_range' k 1 h]
    have hk' : k + i < cats.length := by omega
    have h1 : k + 1 * i = k + i := by omega
    rw [h1]
    simp [List.getD_eq_getElem?_getD, List.getElem?_eq_getElem hk', List.get?_eq_getElem?]
  · have h1 : (List.range' k (cats.length - k)).get? i = none := by
      rw [List.get?_eq_none]
      simpa using by omega
    have h2 : cats.get? (k + i) = none := by
      rw [List.get?_eq_none]
      omega
    rw [h1, h2]
    rfl

/-- Reading a category list at the index subset where a predicate on the
category holds yields exactly the filtered category list. -/
theorem map_getD_filter_range (p : JSVal → Bool) (cats : List JSVal) :
    ((List.range cats.length).filter (fun i => p (cats.getD i jsUndefined))).map
        (fun i => cats.getD i jsUndefined)
      = cats.filter p := by
  induction cats with
  | nil => simp
  | cons x xs ih =>
    have hcomp : ((fun i => p ((x :: xs).getD i jsUndefined)) ∘ Nat.succ)
        = (fun i => p (xs.getD i jsUndefined)) := rfl
    have hcomp2 : ((fun i => (x :: xs).getD i jsUndefined) ∘ Nat.succ)
        = (fun i => xs.getD i jsUndefined) := rfl
    have h0 : (x :: xs).getD 0 jsUndefined = x := rfl
    rw [List.length_cons, List.range_succ_eq_map xs.length, List.filter_cons, h0]
    by_cases hx : p x
    · rw [if_pos hx, List.map_cons, h0, List.filter_map, List.map_map, hcomp, hcomp2, ih]
      simp [List.filter_cons, hx]
    · rw [if_neg hx, List.filter_map, List.map_map, hcomp, hcomp2, ih]
      simp [List.filter_cons, hx]

/-- The category list `[2015, ..., 2021]` of the claim. -/
def catsSliderDemo : List JSVal :=
  [⟨"2015", some 2015⟩, ⟨"2016", some 2016⟩, ⟨"2017", some 2017⟩, ⟨"2018", some 2018⟩,
   ⟨"2019", some 2019⟩, ⟨"2020", some 2020⟩, ⟨"2021", some 2021⟩]

/-- Filter maps holding exactly one active slider filter. -/
def sliderMaps (info : SliderInfo) : FilterMaps :=
  { sliderFilters := [("yr", info)] }

/-- General keep-from-index behaviour of a labelled slider: when the label
under the slider position is non-empty and occurs in the categories at first
position `k`, exactly the categories from position `k` on survive. -/
theorem sliderLabelKeepFrom (cats : List JSVal) (info : SliderInfo) (ls : List String)
    (lab : String) (k : Nat) (hlabels : info.labels = some ls) (hlne : ls ≠ [])
    (hIdx : ¬ jsRound ((info.value - info.min) / (if info.step = 0 then 1 else info.step)) < 0)
    (hGet : ls.get? (jsRound ((info.value - info.min) /
      (if info.step = 0 then 1 else info.step))).toNat = some lab)
    (hlab : lab ≠ "")
    (hFind : cats.findIdx? (fun cat => cat.str == lab) = some k) :
    survivingCats (some cats) (sliderMaps info) = cats.drop k := by
  have hlen : ls.length > 0 := List.length_pos.mpr hlne
  unfold survivingCats computeVisibleIdxs sliderMaps applySliderFilter
  simp only [List.foldl_cons, List.foldl_nil]
  rw [hlabels]
  simp only [if_pos hlen, if_neg hIdx, hGet, if_pos hlab, hFind]
  rw [filter_range_le_eq_range', map_getD_range'_eq_drop]

/-- General numeric fallback of an unlabelled slider: exactly the categories
whose numeric value is at least the slider value survive, non-numeric ones
are kept. -/
theorem sliderNumericKeep (cats : List JSVal) (info : SliderInfo)
    (hlabels : info.labels = none ∨ info.labels = some []) :
    survivingCats (some cats) (sliderMaps info)
      = cats.filter (fun cat =>
          match cat.num with
          | some catNum => decide (info.value ≤ catNum)
          | none => true) := by
  unfold survivingCats computeVisibleIdxs sliderMaps applySliderFilter
  simp only [List.foldl_cons, List.foldl_nil]
  rcases hlabels with h | h <;> rw [h] <;> simp only [List.length_nil, gt_iff_lt,
    Nat.lt_irrefl, if_false] <;>
    exact map_getD_filter_range
      (fun cat =>
        match cat.num with
        | some catNum => decide (info.value ≤ catNum)
        | none => true) cats

/-- C6, counterexample: the general keep-from-index clause fails for the
empty-string label. On categories `[a, ""]` with slider labels `[""]` at
position `0`, the current label `""` occurs in the categories at position
`1`, so the claim predicts only the second category survives; the source
treats the empty label as falsy (`if (startLabel)`) and keeps everything. -/
theorem sliderEmptyLabel_counterexample :
    ([⟨"a", none⟩, ⟨"", none⟩] : List JSVal).findIdx? (fun cat => cat.str == "") = some 1 ∧
    survivingCats (some [⟨"a", none⟩, ⟨"", none⟩])
        (sliderMaps ⟨0, 0, 0, 1, some [""]⟩)
      = [⟨"a", none⟩, ⟨"", none⟩] ∧
    survivingCats (some [⟨"a", none⟩, ⟨"", none⟩])
        (sliderMaps ⟨0, 0, 0, 1, some [""]⟩)
      ≠ ([⟨"a", none⟩, ⟨"", none⟩] : List JSVal).drop 1 := by
  have hidx : jsRound (0 : ℚ) = 0 := by
    norm_num [jsRound]
  refine ⟨by decide, ?_, ?_⟩ <;>
    simp [survivingCats, computeVisibleIdxs, sliderMaps, applySliderFilter, hidx,
      List.range, List.range.loop, jsUndefined]

/-- C6 (amended): on categories `[2015..2021]`, the slider with labels
`["2015", "2018", "2021"]` positioned at label index `1` survives exactly
`[2018, 2019, 2020, 2021]`; in general a labelled slider whose current label
is non-empty and occurs in the categories keeps exactly the categories at or
after that label's first position, and a slider without labels keeps exactly
the categories whose numeric value is at least the slider value (non-numeric
categories are kept). -/
theorem sliderFiltering (cats : List JSVal) (info : SliderInfo) :
    (survivingCats (some catsSliderDemo) (sliderMaps ⟨1, 0, 2, 1, some ["2015", "2018", "2021"]⟩)
      = [⟨"2018", some 2018⟩, ⟨"2019", some 2019⟩, ⟨"2020", some 2020⟩, ⟨"2021", some 2021⟩]) ∧
    (∀ (ls : List String) (lab : String) (k : Nat),
      info.labels = some ls → ls ≠ [] →
      ¬ jsRound ((info.value - info.min) / (if info.step = 0 then 1 else info.step)) < 0 →
      ls.get? (jsRound ((info.value - info.min) /
        (if info.step = 0 then 1 else info.step))).toNat = some lab →
      lab ≠ "" →
      cats.findIdx? (fun cat => cat.str == lab) = some k →
      survivingCats (some cats) (sliderMaps info) = cats.drop k) ∧
    (info.labels = none ∨ info.labels = some [] →
      survivingCats (some cats) (sliderMaps info)
        = cats.filter (fun cat =>
            match cat.num with
            | some catNum => decide (info.value ≤ catNum)
            | none => true)) := by
  refine ⟨?_, ?_, sliderNumericKeep cats info⟩
  · have hidx : ¬ jsRound (((1 : ℚ) - 0) / (if (1 : ℚ) = 0 then 1 else 1)) < 0 := by
      norm_num [jsRound]
    have hget : (["2015", "2018", "2021"] : List String).get?
        (jsRound (((1 : ℚ) - 0) / (if (1 : ℚ) = 0 then 1 else 1))).toNat = some "2018" := by
      have h1 : jsRound (((1 : ℚ) - 0) / (if (1 : ℚ) = 0 then 1 else 1)) = 1 := by
        norm_num [jsRound]
      rw [h1]
      rfl
    exact sliderLabelKeepFrom catsSliderDemo ⟨1, 0, 2, 1, some ["2015", "2018", "2021"]⟩
      ["2015", "2018", "2021"] "2018" 3 rfl (by decide) hidx hget (by decide) (by decide)
  · intro ls lab k h1 h2 h3 h4 h5 h6
    exact sliderLabelKeepFrom cats info ls lab k h1 h2 h3 h4 h5 h6

/-- C6, witness: the amended theorem applied at the concrete scenario, its
general label clause at the same scenario, and its numeric clause at a
two-category list with threshold `2019`. -/
theorem sliderFiltering_witness :
    survivingCats (some catsSliderDemo) (sliderMaps ⟨1, 0, 2, 1, some ["2015", "2018", "2021"]⟩)
      = catsSliderDemo.drop 3 ∧
    survivingCats (some [⟨"2015", some 2015⟩, ⟨"2020", some 2020⟩])
        (sliderMaps ⟨2019, 2015, 2021, 1, none⟩)
      = [⟨"2015", some 2015⟩, ⟨"2020", some 2020⟩].filter (fun cat =>
          match cat.num with
          | some catNum => decide ((2019 : ℚ) ≤ catNum)
          | none => true) :=
  ⟨(sliderFiltering catsSliderDemo ⟨1, 0, 2, 1, some ["2015", "2018", "2021"]⟩).2.1
      ["2015", "2018", "2021"] "2018" 3 rfl (by decide)
      (by norm_num [jsRound])
      (by
        have h1 : jsRound (((1 : ℚ) - 0) / (if (1 : ℚ) = 0 then 1 else 1)) = 1 := by
          norm_num [jsRound]
        rw [h1]
        rfl)
      (by decide) (by decide),
   (sliderFiltering [⟨"2015", some 2015⟩, ⟨"2020", some 2020⟩]
      ⟨2019, 2015, 2021, 1, none⟩).2.2 (Or.inl rfl)⟩

/-! Claim C7: switches force series hidden. -/

/-- The accumulator of the switch-hidden fold only grows. -/
theorem switchHidden_acc_mono (l : List (String × ControlState)) :
    ∀ (acc : List String) (nm : String), nm ∈ acc →
      nm ∈ l.foldl (fun acc kv =>
        let state := kv.2
        if state.inputType = InputType.switch then
          match state.toggleSeries with
          | some ts => if ts ≠ "" ∧ state.bval = false then acc ++ [ts] else acc
          | none => acc
        else acc) acc := by
  induction l with
  | nil => intro acc nm h; exact h
  | cons kv l ih =>
    intro acc nm h
    simp only [List.foldl_cons]
    apply ih
    split
    · split
      · split
        · exact List.mem_append_left _ h
        · exact h
      · exact h
    · exact h

/-- A switch that is off with a non-empty bound series name puts that name in
the hidden set. -/
theorem mem_switchHiddenSeries_aux (nm : String) :
    ∀ (l : List (String × ControlState)) (acc : List String),
      (∃ kv ∈ l, kv.2.inputType = InputType.switch ∧ kv.2.toggleSeries = some nm ∧
        nm ≠ "" ∧ kv.2.bval = false) →
      nm ∈ l.foldl (fun acc kv =>
        let state := kv.2
        if state.inputType = InputType.switch then
          match state.toggleSeries with
          | some ts => if ts ≠ "" ∧ state.bval = false then acc ++ [ts] else acc
          | none => acc
        else acc) acc := by
  intro l
  induction l with
  | nil =>
    intro acc h
    rcases h with ⟨kv, hkv, _⟩
    cases hkv
  | cons kv l ih =>
    intro acc h
    rcases h with ⟨kv1, hkv1, hty, hts, hnm, hoff⟩
    rcases List.mem_cons.mp hkv1 with heq | hmem
    · subst heq
      simp only [List.foldl_cons, hty, if_pos, hts]
      rw [if_pos ⟨hnm, hoff⟩]
      exact switchHidden_acc_mono l (acc ++ [nm]) nm (by simp)
    · simp only [List.foldl_cons]
      exact ih _ ⟨kv1, hmem, hty, hts, hnm, hoff⟩

/-- A switch that is off with a non-empty bound series name puts that name in
the hidden set. -/
theorem mem_switchHiddenSeries (controls : List (String × ControlState))
    (id : String) (s : ControlState) (nm : String)
    (hmem : (id, s) ∈ controls) (hty : s.inputType = InputType.switch)
    (hts : s.toggleSeries = some nm) (hnm : nm ≠ "") (hoff : s.bval = false) :
    nm ∈ switchHiddenSeries controls := by
  unfold switchHiddenSeries
  exact mem_switchHiddenSeries_aux nm controls [] ⟨(id, s), hmem, hty, hts, hnm, hoff⟩

/-- `processSeriesEntry` never renames a series. -/
theorem processSeriesEntry_name (m : FilterMaps) (seriesNames : List String)
    (hidden shown : List String) (oc : Option (List JSVal)) (idxs : List Nat)
    (hnx : Bool) (e : SeriesEntry) :
    (processSeriesEntry m seriesNames hidden shown oc idxs hnx e).live.name = e.live.name := by
  unfold processSeriesEntry
  dsimp only []
  by_cases h1 : hidden.contains e.live.name = true
  · rw [if_pos h1]
  · rw [if_neg h1]
    by_cases h2 : (shown.contains e.live.name || seriesShouldShow m seriesNames e.live.name) = true
    · rw [if_pos h2]
      cases hs : e.snap <;> cases oc <;> try rfl
      cases hnx <;> rfl
    · rw [if_neg h2]

/-- A series whose name is in the hidden set is made invisible and removed
from the legend, with no other filter consulted. -/
theorem processSeriesEntry_hidden (m : FilterMaps) (seriesNames : List String)
    (hidden shown : List String) (oc : Option (List JSVal)) (idxs : List Nat)
    (hnx : Bool) (e : SeriesEntry) (hmem : e.live.name ∈ hidden) :
    (processSeriesEntry m seriesNames hidden shown oc idxs hnx e).live.visible = false ∧
    (processSeriesEntry m seriesNames hidden shown oc idxs hnx e).live.showInLegend = false := by
  unfold processSeriesEntry
  have hc : hidden.contains e.live.name = true := List.elem_iff.mpr hmem
  rw [if_pos hc]
  exact ⟨rfl, rfl⟩

/-- A chart carrying a usable cross-tab entry and one series named `B`. -/
def crossTabChartWithB : ChartState :=
  { crossTab := some ⟨some [], some ⟨"x", "s", ["f"], "normal", ["B"], ["a"]⟩⟩,
    origCats := none, axisCats := none,
    series := [⟨⟨"B", "line", [DataPoint.num 1], true, true⟩, none⟩],
    title := "", subtitle := "", yTitle := "", legendEnabled := true, redraws := 0 }

/-- A registry holding one switch bound to series `B`, switched off. -/
def switchOffB : List (String × ControlState) :=
  [("sw", { filterVar := "toggle_b", inputType := InputType.switch, bval := false,
            toggleSeries := some "B" })]

/-- C7, counterexample: on a chart with cross-tab data, filter application
delegates entirely to the cross-tab rebuild, which never touches visibility
or the legend; series `B` stays visible and in the legend although a switch
with `toggleSeries = B` and value `false` is active. -/
theorem switchHidden_crossTab_counterexample :
    ((applyChart ⟨none, none⟩ switchOffB (buildFilterMaps switchOffB)
        crossTabChartWithB).series.map (fun e => (e.live.name, e.live.visible, e.live.showInLegend)))
      = [("B", true, true)] := by
  decide

/-- C7 (amended): for every chart handled by the normal filter path (no
cross-tab entry), a switch control with a non-empty `toggleSeries` name and
value `false` makes every series of that name invisible and removed from the
legend, whatever other discrete, text, slider or period filters are
active. -/
theorem switchForcesSeriesHidden (g : Globals) (controls : List (String × ControlState))
    (m : FilterMaps) (chart : ChartState) (hct : chart.crossTab = none)
    (id : String) (s : ControlState) (nm : String)
    (hmem : (id, s) ∈ controls) (hty : s.inputType = InputType.switch)
    (hts : s.toggleSeries = some nm) (hnm : nm ≠ "") (hoff : s.bval = false) :
    ∀ e ∈ (applyChart g controls m chart).series, e.live.name = nm →
      e.live.visible = false ∧ e.live.showInLegend = false := by
  intro e he hname
  have happ : applyChart g controls m chart = normalFilterChart g controls m chart := by
    unfold applyChart
    rw [hct]
  rw [happ] at he
  unfold normalFilterChart at he
  simp only [List.mem_map] at he
  rcases he with ⟨e0, he0, rfl⟩
  have hn0 : e0.live.name = nm := by
    rw [← hname, processSeriesEntry_name]
  have hhid : e0.live.name ∈ switchHiddenSeries controls := by
    rw [hn0]
    exact mem_switchHiddenSeries controls id s nm hmem hty hts hnm hoff
  exact processSeriesEntry_hidden _ _ _ _ _ _ _ _ hhid

/-- The counterpart chart of the claim without cross-tab data. -/
def plainChartWithB : ChartState :=
  { crossTab := none, origCats := none, axisCats := none,
    series := [⟨⟨"A", "line", [DataPoint.num 2], true, true⟩, none⟩,
               ⟨⟨"B", "line", [DataPoint.num 1], true, true⟩, none⟩],
    title := "", subtitle := "", yTitle := "", legendEnabled := true, redraws := 0 }

/-- C7, witness: the amended theorem applied to the second (name `B`) series
entry of the filtered plain two-series chart. -/
theorem switchForcesSeriesHidden_witness :
    ((applyChart ⟨none, none⟩ switchOffB (buildFilterMaps switchOffB)
        plainChartWithB).series.getD 1 ⟨⟨"", "", [], true, true⟩, none⟩).live.visible = false
    ∧ ((applyChart ⟨none, none⟩ switchOffB (buildFilterMaps switchOffB)
        plainChartWithB).series.getD 1 ⟨⟨"", "", [], true, true⟩, none⟩).live.showInLegend
        = false :=
  switchForcesSeriesHidden ⟨none, none⟩ switchOffB (buildFilterMaps switchOffB)
    plainChartWithB rfl "sw"
    { filterVar := "toggle_b", inputType := InputType.switch, bval := false,
      toggleSeries := some "B" } "B"
    (List.mem_singleton.mpr rfl) rfl rfl (by decide) rfl
    ((applyChart ⟨none, none⟩ switchOffB (buildFilterMaps switchOffB)
        plainChartWithB).series.getD 1 ⟨⟨"", "", [], true, true⟩, none⟩)
    (by decide) (by decide)

/-! Claim C2: immutability of the chart snapshot. -/

/-- Setting a list position to the value it already holds changes nothing. -/
theorem set_get?_eq {α : Type} : ∀ (l : List α) (i : Nat) (x : α),
    l.get? i = some x → l.set i x = l := by
  intro l
  induction l with
  | nil => intro i x h; cases h
  | cons a l ih =>
    intro i x h
    cases i with
    | zero =>
      cases h
      rfl
    | succ i =>
      rw [List.set_cons_succ, ih i x h]

/-- `processSeriesEntry` never touches the snapshot. -/
theorem processSeriesEntry_snap (m : FilterMaps) (seriesNames : List String)
    (hidden shown : List String) (oc : Option (List JSVal)) (idxs : List Nat)
    (hnx : Bool) (e : SeriesEntry) :
    (processSeriesEntry m seriesNames hidden shown oc idxs hnx e).snap = e.snap := by
  unfold processSeriesEntry
  dsimp only []
  by_cases h1 : hidden.contains e.live.name = true
  · rw [if_pos h1]
  · rw [if_neg h1]
    by_cases h2 : (shown.contains e.live.name || seriesShouldShow m seriesNames e.live.name) = true
    · rw [if_pos h2]
      cases hs : e.snap <;> cases oc <;> try rfl
      cases hnx <;> rfl
    · rw [if_neg h2]

/-- The chart-type step never touches the snapshots. -/
theorem applyChartTypeStep_snaps (filters : List (String × List String)) :
    ∀ (series : List SeriesEntry),
      (applyChartTypeStep series filters).map (fun e => e.snap) = series.map (fun e => e.snap) := by
  unfold applyChartTypeStep
  induction filters with
  | nil => intro series; rfl
  | cons kv l ih =>
    intro series
    rw [List.foldl_cons]
    rw [ih]
    dsimp only []
    split
    · split
      · rw [List.map_map]
        rfl
      · rfl
    · rfl

/-- An inactive metric branch leaves the chart untouched. -/
theorem applyMetricStep_inactive (g : Globals) (m : FilterMaps)
    (oc : Option (List JSVal)) (c : ChartState) (h : metricActive g m = false) :
    applyMetricStep g m oc c = c := by
  unfold metricActive at h
  unfold applyMetricStep
  cases h1 : alookup m.filters "metric" with
  | none => rfl
  | some sel =>
    cases h2 : g.metricData with
    | none => rfl
    | some allData =>
      rw [h1, h2] at h
      dsimp only [] at h
      rw [decide_eq_false_iff_not] at h
      dsimp only []
      rw [if_neg h]

/-- One rebuild write never touches the snapshots. -/
theorem rebuildStep_snaps (names : List String) (dataFor : String → List DataPoint)
    (seriesList : List SeriesEntry) (p : Nat × String) :
    (rebuildStep names dataFor seriesList p).map (fun e => e.snap)
      = seriesList.map (fun e => e.snap) := by
  unfold rebuildStep
  dsimp only []
  split
  · rename_i i heq
    cases he : seriesList.get? i with
    | none => rfl
    | some e =>
      dsimp only []
      rw [List.map_set]
      apply set_get?_eq
      rw [List.get?_map, he]
      rfl
  · rfl

/-- A fold of rebuild writes never touches the snapshots. -/
theorem rebuildSteps_snaps (names : List String) (dataFor : String → List DataPoint) :
    ∀ (plan : List (Nat × String)) (seriesList : List SeriesEntry),
    ((plan.foldl (rebuildStep names dataFor) seriesList).map (fun e => e.snap))
      = seriesList.map (fun e => e.snap) := by
  intro plan
  induction plan with
  | nil => intro l; rfl
  | cons p plan ih =>
    intro l
    rw [List.foldl_cons, ih, rebuildStep_snaps]

/-- The series rebuild of the cross-tab path never touches the snapshots. -/
theorem rebuildFromCrossTab_snaps (chart : ChartState) (crossTabEntry : CrossTabData)
    (filters : List (String × List String)) (c1 : ChartState)
    (h : rebuildFromCrossTab chart crossTabEntry filters = some c1) :
    c1.series.map (fun e => e.snap) = chart.series.map (fun e => e.snap) := by
  unfold rebuildFromCrossTab at h
  cases hd : crossTabEntry.data with
  | none => rw [hd] at h; cases h
  | some data =>
    cases hc : crossTabEntry.config with
    | none => rw [hd, hc] at h; cases h
    | some config =>
      rw [hd, hc] at h
      dsimp only [] at h
      cases h
      exact rebuildSteps_snaps _ _ _ _

theorem capture_series (c : ChartState) :
    (if c.origCats.isNone ∧ c.axisCats.isSome then { c with origCats := c.axisCats } else c).series
      = c.series := by
  by_cases h : c.origCats.isNone ∧ c.axisCats.isSome
  · rw [if_pos h]
  · rw [if_neg h]

theorem capture_origCats (c : ChartState) :
    (if c.origCats.isNone ∧ c.axisCats.isSome then { c with origCats := c.axisCats } else c).origCats
      = ocOf c := by
  by_cases h : c.origCats.isNone ∧ c.axisCats.isSome
  · rw [if_pos h]
    rcases h with ⟨h1, h2⟩
    cases hc : c.origCats with
    | some o => rw [hc] at h1; simp at h1
    | none => simp only [ocOf, hc]
  · rw [if_neg h]
    rcases hc : c.origCats with _ | o
    · rcases ha : c.axisCats with _ | a
      · simp only [ocOf, hc, ha]
      · exact absurd ⟨by simp [hc], by simp [ha]⟩ h
    · simp only [ocOf, hc]

theorem applyMetricStep_origCats (g : Globals) (m : FilterMaps)
    (oc : Option (List JSVal)) (c : ChartState) :
    (applyMetricStep g m oc c).origCats = c.origCats := by
  unfold applyMetricStep
  cases alookup m.filters "metric" <;> cases g.metricData <;> simp only []
  split <;> rfl

theorem normalFilterChart_origCats (g : Globals) (controls : List (String × ControlState))
    (m : FilterMaps) (c : ChartState) :
    (normalFilterChart g controls m c).origCats = ocOf c := by
  unfold normalFilterChart
  simp only [applyMetricStep_origCats, capture_origCats]

theorem rebuildFromCrossTab_origCats (chart : ChartState) (crossTabEntry : CrossTabData)
    (filters : List (String × List String)) (c1 : ChartState)
    (h : rebuildFromCrossTab chart crossTabEntry filters = some c1) :
    c1.origCats = chart.origCats := by
  unfold rebuildFromCrossTab at h
  cases hd : crossTabEntry.data with
  | none => rw [hd] at h; cases h
  | some data =>
    cases hc : crossTabEntry.config with
    | none => rw [hd, hc] at h; cases h
    | some config =>
      rw [hd, hc] at h
      dsimp only [] at h
      cases h
      rfl

theorem map_snap_map_process (m : FilterMaps) (seriesNames : List String)
    (hidden shown : List String) (oc : Option (List JSVal)) (idxs : List Nat)
    (hnx : Bool) (l : List SeriesEntry) :
    ((l.map (processSeriesEntry m seriesNames hidden shown oc idxs hnx)).map (fun e => e.snap))
      = l.map (fun e => e.snap) := by
  rw [List.map_map]
  apply List.map_congr_left
  intro e he
  exact processSeriesEntry_snap m seriesNames hidden shown oc idxs hnx e

theorem normalFilterChart_snaps (g : Globals) (controls : List (String × ControlState))
    (m : FilterMaps) (c : ChartState) (hmi : metricActive g m = false) :
    (normalFilterChart g controls m c).series.map (fun e => e.snap)
      = c.series.map (fun e => e.snap) := by
  unfold normalFilterChart
  dsimp only []
  rw [applyMetricStep_inactive _ _ _ _ hmi]
  dsimp only []
  rw [map_snap_map_process, applyChartTypeStep_snaps, capture_series]

/-- The chart and registry of the metric-overwrite scenario: one series `S1`
with captured snapshot `[1]`, chart category `2020`, a metric table with one
matching row of value `5`, and a metric select choosing `m`. -/
def metricChart : ChartState :=
  { crossTab := none, origCats := none, axisCats := some [⟨"2020", some 2020⟩],
    series := [⟨⟨"S1", "line", [DataPoint.num 1], true, true⟩, none⟩],
    title := "", subtitle := "", yTitle := "", legendEnabled := true, redraws := 0 }

def metricGlobals : Globals :=
  ⟨some [⟨"S1", "m", [("year", ⟨"2020", some 2020⟩)], 5⟩], none⟩

def metricControls : List (String × ControlState) :=
  [("sel", { filterVar := "metric", inputType := InputType.select, selected := ["m"] })]

/-- C2, counterexample: after `storeOriginalData` captures the snapshot
`[1]`, one filter application with an active metric filter overwrites the
stored snapshot with the metric-rebuilt data `[5]`: the snapshot does not
stay as first captured. -/
theorem snapshot_mutated_by_metric_counterexample :
    ((storeOriginalData metricChart).series.map (fun e => e.snap))
      = [some ⟨[DataPoint.num 1], "S1"⟩] ∧
    ((applyChart metricGlobals metricControls (buildFilterMaps metricControls)
        (storeOriginalData metricChart)).series.map (fun e => e.snap))
      = [some ⟨[DataPoint.num 5], "S1"⟩] := by
  refine ⟨by decide, by decide⟩

/-- C2 (amended): the captured original-category snapshot is never mutated by
filter application, and the per-series data snapshots are never mutated by
filter application without an active metric filter, by the cross-tab rebuild,
or by a later `storeOriginalData` (which only fills missing entries); the
active metric branch is the one exception, which overwrites the snapshots of
matched series. -/
theorem snapshotImmutability (g : Globals) (controls : List (String × ControlState))
    (m : FilterMaps) (chart : ChartState) :
    (∀ o, chart.origCats = some o → (applyChart g controls m chart).origCats = some o) ∧
    (metricActive g m = false →
      (applyChart g controls m chart).series.map (fun e => e.snap)
        = chart.series.map (fun e => e.snap)) ∧
    ((storeOriginalData chart).series.map (fun e => e.snap)
      = chart.series.map (fun e =>
          match e.snap with
          | some sn => some sn
          | none => some ⟨e.live.data, e.live.name⟩)) := by
  refine ⟨?_, ?_, ?_⟩
  · intro o ho
    unfold applyChart
    cases hct : chart.crossTab with
    | none =>
      dsimp only []
      rw [normalFilterChart_origCats]
      simp [ocOf, ho]
    | some ctd =>
      dsimp only []
      cases hr : rebuildFromCrossTab chart ctd m.filters with
      | none =>
        dsimp only []
        rw [normalFilterChart_origCats]
        simp [ocOf, ho]
      | some c1 =>
        dsimp only []
        rw [rebuildFromCrossTab_origCats chart ctd m.filters c1 hr, ho]
  · intro hmi
    unfold applyChart
    cases hct : chart.crossTab with
    | none =>
      dsimp only []
      exact normalFilterChart_snaps g controls m chart hmi
    | some ctd =>
      dsimp only []
      cases hr : rebuildFromCrossTab chart ctd m.filters with
      | none =>
        dsimp only []
        exact normalFilterChart_snaps g controls m chart hmi
      | some c1 =>
        dsimp only []
        exact rebuildFromCrossTab_snaps chart ctd m.filters c1 hr
  · unfold storeOriginalData
    rw [List.map_map]
    apply List.map_congr_left
    intro e he
    cases hs : e.snap <;> simp [Function.comp, hs]

/-- C2, witness: the amended theorem at the metric scenario but with the
metric select cleared (no active metric), and at a chart with captured
original categories. -/
theorem snapshotImmutability_witness :
    (applyChart metricGlobals [] (buildFilterMaps []) { metricChart with
        origCats := some [⟨"2020", some 2020⟩] }).origCats = some [⟨"2020", some 2020⟩] ∧
    (applyChart metricGlobals [] (buildFilterMaps []) (storeOriginalData metricChart)).series.map
        (fun e => e.snap)
      = (storeOriginalData metricChart).series.map (fun e => e.snap) :=
  ⟨(snapshotImmutability metricGlobals [] (buildFilterMaps [])
      { metricChart with origCats := some [⟨"2020", some 2020⟩] }).1
      [⟨"2020", some 2020⟩] rfl,
   (snapshotImmutability metricGlobals [] (buildFilterMaps [])
      (storeOriginalData metricChart)).2.1 (by decide)⟩

/-! Claim C8: `All` tokens disable cross-tab filtering on their variable. -/

theorem alookup_eraseKey_self {α : Type} (l : List (String × α)) (k : String) :
    alookup (eraseKey l k) k = none := by
  unfold alookup eraseKey
  have h : (l.filter (fun p => !(p.1 == k))).find? (fun p => p.1 == k) = none := by
    rw [List.find?_eq_none]
    intro x hx
    have hmem := (List.mem_filter.mp hx).2
    simp only [Bool.not_eq_true'] at hmem
    simp [hmem]
  rw [h]
  rfl

theorem alookup_eraseKey_ne {α : Type} (l : List (String × α)) (k k' : String)
    (h : k' ≠ k) : alookup (eraseKey l k) k' = alookup l k' := by
  unfold alookup eraseKey
  induction l with
  | nil => rfl
  | cons p l ih =>
    rw [List.filter_cons]
    by_cases hp : p.1 = k
    · have h1 : (!(p.1 == k)) = false := by simp [hp]
      rw [h1]
      rw [List.find?_cons]
      have h2 : (p.1 == k') = false := by
        simp [hp]
        intro hq
        exact absurd hq.symm h
      rw [h2]
      exact ih
    · have h1 : (!(p.1 == k)) = true := by simp [hp]
      rw [h1]
      rw [if_pos rfl]
      rw [List.find?_cons, List.find?_cons]
      cases hq : (p.1 == k') with
      | true => rfl
      | false => exact ih

/-- Removing a binding whose selection holds an `All` token does not change
the filtered cross-tab rows. -/
theorem crossTabFilterRows_eraseAll (fv : String) (sel : List String)
    (filters : List (String × List String)) (hlk : alookup filters fv = some sel)
    (hne : sel.length > 0) (hall : hasAllOption sel = true) (filterVars : List String) :
    ∀ data, crossTabFilterRows data filterVars filters
      = crossTabFilterRows data filterVars (eraseKey filters fv) := by
  unfold crossTabFilterRows
  induction filterVars with
  | nil => intro data; rfl
  | cons v vs ih =>
    intro data
    rw [List.foldl_cons, List.foldl_cons]
    have hstep : (match alookup filters v with
        | some selectedValues =>
          if selectedValues.length > 0 then
            if hasAllOption selectedValues then data
            else data.filter (fun row => selectedValues.contains (rowGet row v))
          else data
        | none => data)
        = (match alookup (eraseKey filters fv) v with
        | some selectedValues =>
          if selectedValues.length > 0 then
            if hasAllOption selectedValues then data
            else data.filter (fun row => selectedValues.contains (rowGet row v))
          else data
        | none => data) := by
      by_cases hv : v = fv
      · subst hv
        rw [hlk, alookup_eraseKey_self]
        dsimp only []
        rw [if_pos hne, if_pos hall]
      · rw [alookup_eraseKey_ne filters fv v hv]
    rw [← hstep]
    exact ih _

/-- C8: in cross-tab rebuild, a filter variable whose active (nonempty)
selection contains an `All` token (checked case-insensitively against the
multilingual token list) performs no row filtering: the whole rebuild output
equals the rebuild with no selection on that variable at all. -/
theorem crossTabAllToken_disables_filtering (chart : ChartState)
    (crossTabEntry : CrossTabData) (filters : List (String × List String))
    (fv : String) (sel : List String) (hlk : alookup filters fv = some sel)
    (hne : sel.length > 0) (hall : hasAllOption sel = true) :
    rebuildFromCrossTab chart crossTabEntry filters
      = rebuildFromCrossTab chart crossTabEntry (eraseKey filters fv) := by
  unfold rebuildFromCrossTab
  cases crossTabEntry.data <;> cases crossTabEntry.config <;> try rfl
  dsimp only []
  rw [crossTabFilterRows_eraseAll fv sel filters hlk hne hall]

/-- The cross-tab table of the witness: counts by (x, stack, country). -/
def witnessRows : List Row :=
  [⟨[("x", "a"), ("s", "A"), ("c", "DE")], 1⟩, ⟨[("x", "b"), ("s", "A"), ("c", "FR")], 2⟩]

def witnessCrossTab : CrossTabData :=
  ⟨some witnessRows, some ⟨"x", "s", ["c"], "normal", [], []⟩⟩

def witnessChart : ChartState :=
  { crossTab := some witnessCrossTab, origCats := none, axisCats := none,
    series := [⟨⟨"A", "line", [], true, true⟩, none⟩],
    title := "", subtitle := "", yTitle := "", legendEnabled := true, redraws := 0 }

/-- C8, witness: selecting `All` on the country dimension yields the same
rebuild as no country selection at all. -/
theorem crossTabAllToken_witness :
    rebuildFromCrossTab witnessChart witnessCrossTab [("c", ["All"])]
      = rebuildFromCrossTab witnessChart witnessCrossTab (eraseKey [("c", ["All"])] "c") :=
  crossTabAllToken_disables_filtering witnessChart witnessCrossTab [("c", ["All"])]
    "c" ["All"] (by decide) (by decide) (by decide)

/-! Claim C3: percent-mode stack sums. -/

theorem upsert_keys {α : Type} (l : List (String × α)) (k : String) (v : α) :
    (upsert l k v).map (fun p => p.1)
      = if l.any (fun p => p.1 == k) then l.map (fun p => p.1)
        else l.map (fun p => p.1) ++ [k] := by
  unfold upsert
  split
  · rw [List.map_map]
    apply List.map_congr_left
    intro p hp
    by_cases h : p.1 = k
    · simp [h]
    · simp [h]
  · rw [List.map_append]
    rfl

theorem upsert_keys_nodup {α : Type} (l : List (String × α)) (k : String) (v : α)
    (h : (l.map (fun p => p.1)).Nodup) : ((upsert l k v).map (fun p => p.1)).Nodup := by
  rw [upsert_keys]
  split
  · exact h
  · rw [List.nodup_append]
    refine ⟨h, List.nodup_singleton k, ?_⟩
    intro a ha hb
    rcases List.mem_singleton.mp hb with rfl
    rcases List.mem_map.mp ha with ⟨p, hp, hpk⟩
    rename_i hany
    rw [List.any_eq_true] at hany
    exact hany ⟨p, hp, by simp [hpk]⟩

theorem find?_map_overwrite {α : Type} (k : String) (v : α) :
    ∀ (l : List (String × α)), l.any (fun p => p.1 == k) = true →
      (l.map (fun p => if p.1 == k then (k, v) else p)).find? (fun p => p.1 == k)
        = some (k, v) := by
  intro l
  induction l with
  | nil => intro h; simp at h
  | cons p l ih =>
    intro h
    rw [List.map_cons, List.find?_cons]
    by_cases hp : p.1 = k
    · have h2 : (if (p.1 == k) = true then (k, v) else p) = (k, v) := by simp [hp]
      rw [h2]
      have h1 : (((k, v) : String × α).1 == k) = true := by simp
      rw [h1]
    · have h2 : (if (p.1 == k) = true then (k, v) else p) = p := by simp [hp]
      rw [h2]
      have h1 : (p.1 == k) = false := by simp [hp]
      rw [h1]
      apply ih
      rw [List.any_cons] at h
      simpa [hp] using h

theorem find?_append_fresh {α : Type} (k : String) (v : α) :
    ∀ (l : List (String × α)), (∀ p ∈ l, (p.1 == k) = false) →
      (l ++ [(k, v)]).find? (fun p => p.1 == k) = some (k, v) := by
  intro l
  induction l with
  | nil => simp
  | cons p l ih =>
    intro h
    rw [List.cons_append, List.find?_cons, h p (List.mem_cons_self p l)]
    exact ih (fun q hq => h q (List.mem_cons_of_mem p hq))

theorem alookup_upsert_self {α : Type} (l : List (String × α)) (k : String) (v : α) :
    alookup (upsert l k v) k = some v := by
  unfold upsert alookup
  split
  · rw [find?_map_overwrite k v l (by assumption)]
    rfl
  · rw [find?_append_fresh k v l (by
      intro p hp
      rename_i hany
      rw [List.any_eq_true] at hany
      push_neg at hany
      have := hany p hp
      simpa using this)]
    rfl

theorem find?_map_overwrite_ne {α : Type} (k k' : String) (v : α) (h : k' ≠ k) :
    ∀ (l : List (String × α)),
      (l.map (fun p => if p.1 == k then (k, v) else p)).find? (fun p => p.1 == k')
        = l.find? (fun p => p.1 == k') := by
  intro l
  induction l with
  | nil => rfl
  | cons p l ih =>
    rw [List.map_cons, List.find?_cons, List.find?_cons]
    by_cases hp : p.1 = k
    · have h2 : (if (p.1 == k) = true then (k, v) else p) = (k, v) := by simp [hp]
      rw [h2]
      have h1 : (((k, v) : String × α).1 == k') = false := by
        simp
        exact fun hq => absurd hq.symm h
      have h3 : (p.1 == k') = false := by
        simp [hp]
        exact fun hq => absurd hq.symm h
      rw [h1, h3]
      exact ih
    · have h2 : (if (p.1 == k) = true then (k, v) else p) = p := by simp [hp]
      rw [h2]
      cases hq : (p.1 == k') with
      | true => rfl
      | false => exact ih

theorem find?_append_ne {α : Type} (k k' : String) (v : α) (h : k' ≠ k) :
    ∀ (l : List (String × α)),
      (l ++ [(k, v)]).find? (fun p => p.1 == k') = l.find? (fun p => p.1 == k') := by
  intro l
  induction l with
  | nil =>
    rw [List.nil_append, List.find?_cons]
    have h1 : (((k, v) : String × α).1 == k') = false := by
      simp
      exact fun hq => absurd hq.symm h
    rw [h1]
  | cons p l ih =>
    rw [List.cons_append, List.find?_cons, List.find?_cons]
    cases hq : (p.1 == k') with
    | true => rfl
    | false => exact ih

theorem alookup_upsert_ne {α : Type} (l : List (String × α)) (k k' : String) (v : α)
    (h : k' ≠ k) : alookup (upsert l k v) k' = alookup l k' := by
  unfold upsert alookup
  split
  · rw [find?_map_overwrite_ne k k' v h l]
  · rw [find?_append_ne k k' v h l]

theorem mem_dedupFirst_aux {α : Type} [DecidableEq α] (a : α) :
    ∀ (l : List α) (acc : List α),
      (a ∈ l.foldl (fun acc x => if acc.contains x then acc else acc ++ [x]) acc)
        ↔ (a ∈ acc ∨ a ∈ l) := by
  intro l
  induction l with
  | nil => intro acc; simp
  | cons x l ih =>
    intro acc
    rw [List.foldl_cons, ih]
    by_cases hx : acc.contains x = true
    · rw [if_pos hx]
      have hxa : x ∈ acc := List.elem_iff.mp hx
      constructor
      · rintro (h | h)
        · exact Or.inl h
        · exact Or.inr (List.mem_cons_of_mem x h)
      · rintro (h | h)
        · exact Or.inl h
        · rcases List.mem_cons.mp h with h | h
          · exact Or.inl (h ▸ hxa)
          · exact Or.inr h
    · rw [if_neg hx]
      constructor
      · rintro (h | h)
        · rcases List.mem_append.mp h with h | h
          · exact Or.inl h
          · exact Or.inr (List.mem_cons.mpr (Or.inl (List.mem_singleton.mp h)))
        · exact Or.inr (List.mem_cons_of_mem x h)
      · rintro (h | h)
        · exact Or.inl (List.mem_append_left _ h)
        · rcases List.mem_cons.mp h with h | h
          · exact Or.inl (List.mem_append_right _ (by simp [h]))
          · exact Or.inr h

theorem mem_dedupFirst {α : Type} [DecidableEq α] (a : α) (l : List α) :
    a ∈ dedupFirst l ↔ a ∈ l := by
  unfold dedupFirst
  rw [mem_dedupFirst_aux]
  simp

theorem dedupFirst_nodup_aux {α : Type} [DecidableEq α] :
    ∀ (l : List α) (acc : List α), acc.Nodup →
      (l.foldl (fun acc x => if acc.contains x then acc else acc ++ [x]) acc).Nodup := by
  intro l
  induction l with
  | nil => intro acc h; exact h
  | cons x l ih =>
    intro acc h
    rw [List.foldl_cons]
    by_cases hx : acc.contains x = true
    · rw [if_pos hx]
      exact ih acc h
    · rw [if_neg hx]
      apply ih
      rw [← List.concat_eq_append]
      exact List.Nodup.concat (fun hmem => hx (List.elem_iff.mpr hmem)) h

theorem dedupFirst_nodup {α : Type} [DecidableEq α] (l : List α) : (dedupFirst l).Nodup :=
  dedupFirst_nodup_aux l [] List.nodup_nil

theorem alookup_eq_none {α : Type} (l : List (String × α)) (k : String)
    (h : k ∉ l.map (fun p => p.1)) : alookup l k = none := by
  unfold alookup
  rw [List.find?_eq_none.mpr]
  · rfl
  · intro p hp hpk
    exact h (List.mem_map.mpr ⟨p, hp, by simpa using hpk⟩)

/-- Every inner dictionary of `buildByX` has distinct stack keys. -/
theorem buildByX_inner_nodup_aux :
    ∀ (l : List (String × SummedItem)) (byX0 : List (String × List (String × ℚ))),
      (∀ x inner, alookup byX0 x = some inner → (inner.map (fun p => p.1)).Nodup) →
      ∀ x inner, alookup (l.foldl (fun byX kv =>
          let item := kv.2
          let inner := (alookup byX item.xVal).getD []
          upsert byX item.xVal (upsert inner item.stackVal item.n)) byX0) x = some inner →
        (inner.map (fun p => p.1)).Nodup := by
  intro l
  induction l with
  | nil => intro byX0 h; exact h
  | cons kv l ih =>
    intro byX0 h
    rw [List.foldl_cons]
    apply ih
    intro x inner hx
    by_cases hxk : x = kv.2.xVal
    · subst hxk
      rw [alookup_upsert_self] at hx
      cases hx
      apply upsert_keys_nodup
      cases h0 : alookup byX0 kv.2.xVal with
      | none => simp [h0]
      | some inner0 => exact h kv.2.xVal inner0 h0
    · rw [alookup_upsert_ne _ _ _ _ hxk] at hx
      exact h x inner hx

theorem buildByX_inner_nodup (summed : List (String × SummedItem)) (x : String)
    (inner : List (String × ℚ)) (h : alookup (buildByX summed) x = some inner) :
    (inner.map (fun p => p.1)).Nodup := by
  unfold buildByX at h
  exact buildByX_inner_nodup_aux summed [] (by intro x inner hx; cases hx) x inner h

/-- Every stack key of a `buildByX` inner dictionary is the stack value of
some summed entry. -/
theorem buildByX_inner_keys_aux (P : String → Prop) :
    ∀ (l : List (String × SummedItem)) (byX0 : List (String × List (String × ℚ))),
      (∀ x inner, alookup byX0 x = some inner → ∀ p ∈ inner, P p.1) →
      (∀ kv ∈ l, P kv.2.stackVal) →
      ∀ x inner, alookup (l.foldl (fun byX kv =>
          let item := kv.2
          let inner := (alookup byX item.xVal).getD []
          upsert byX item.xVal (upsert inner item.stackVal item.n)) byX0) x = some inner →
        ∀ p ∈ inner, P p.1 := by
  intro l
  induction l with
  | nil => intro byX0 h _; exact h
  | cons kv l ih =>
    intro byX0 h hl
    rw [List.foldl_cons]
    apply ih
    · intro x inner hx p hp
      by_cases hxk : x = kv.2.xVal
      · subst hxk
        rw [alookup_upsert_self] at hx
        cases hx
        unfold upsert at hp
        split at hp
        · rcases List.mem_map.mp hp with ⟨q, hq, hqe⟩
          by_cases hqk : q.1 = kv.2.stackVal
          · have : p = (kv.2.stackVal, kv.2.n) := by
              rw [← hqe]
              simp [hqk]
            rw [this]
            exact hl kv (List.mem_cons_self kv l)
          · have hpq : p = q := by
              rw [← hqe]
              simp [hqk]
            subst hpq
            cases h0 : alookup byX0 kv.2.xVal with
            | none => rw [h0] at hq; cases hq
            | some inner0 =>
              rw [h0] at hq
              exact h kv.2.xVal inner0 h0 p hq
        · rcases List.mem_append.mp hp with hq | hq
          · cases h0 : alookup byX0 kv.2.xVal with
            | none => rw [h0] at hq; cases hq
            | some inner0 =>
              rw [h0] at hq
              exact h kv.2.xVal inner0 h0 p hq
          · rcases List.mem_singleton.mp hq with rfl
            exact hl kv (List.mem_cons_self kv l)
      · rw [alookup_upsert_ne _ _ _ _ hxk] at hx
        exact h x inner hx p hp
    · intro q hq
      exact hl q (List.mem_cons_of_mem kv hq)

theorem buildByX_inner_keys (summed : List (String × SummedItem)) (x : String)
    (inner : List (String × ℚ)) (h : alookup (buildByX summed) x = some inner) :
    ∀ p ∈ inner, p.1 ∈ summed.map (fun kv => kv.2.stackVal) := by
  unfold buildByX at h
  exact buildByX_inner_keys_aux (fun s => s ∈ summed.map (fun kv => kv.2.stackVal))
    summed [] (by intro x inner hx; cases hx)
    (by
      intro kv hkv
      exact List.mem_map.mpr ⟨kv, hkv, rfl⟩) x inner h

theorem sum_update_at_key (key : String) (n : ℚ) (f : String → ℚ) :
    ∀ (SS : List String), SS.Nodup → key ∈ SS → f key = 0 →
      (SS.map (fun s => if s = key then n else f s)).sum = n + (SS.map f).sum := by
  intro SS
  induction SS with
  | nil => intro _ h; cases h
  | cons s SS ih =>
    intro hnd hk hf
    rw [List.map_cons, List.map_cons, List.sum_cons, List.sum_cons]
    by_cases hs : s = key
    · subst hs
      rw [if_pos rfl, hf]
      have hnotin : s ∉ SS := (List.nodup_cons.mp hnd).1
      have hcong : SS.map (fun t => if t = s then n else f t) = SS.map f := by
        apply List.map_congr_left
        intro t ht
        have hne : t ≠ s := by
          intro he
          rw [he] at ht
          exact hnotin ht
        rw [if_neg hne]
      rw [hcong]
      ring
    · rw [if_neg hs]
      have hk' : key ∈ SS := by
        rcases List.mem_cons.mp hk with h | h
        · exact absurd h.symm hs
        · exact h
      rw [ih (List.nodup_cons.mp hnd).2 hk' hf]
      ring

/-- The stack counts looked up along a duplicate-free covering stack list sum
to the total of the dictionary entries. -/
theorem sum_lookup_eq_sum : ∀ (inner : List (String × ℚ)) (SS : List String),
    SS.Nodup → (inner.map (fun p => p.1)).Nodup →
    (∀ p ∈ inner, p.1 ∈ SS) →
    (SS.map (fun s => (alookup inner s).getD 0)).sum = (inner.map (fun p => p.2)).sum := by
  intro inner
  induction inner with
  | nil =>
    intro SS _ _ _
    simp [alookup]
  | cons p inner ih =>
    intro SS hnd hkeys hcov
    rw [List.map_cons] at hkeys
    have hstep : ∀ s ∈ SS, (alookup (p :: inner) s).getD 0
        = if s = p.1 then p.2 else (alookup inner s).getD 0 := by
      intro s _
      unfold alookup
      rw [List.find?_cons]
      by_cases hs : p.1 = s
      · rw [show (p.1 == s) = true by simp [hs], if_pos hs.symm]
        rfl
      · rw [show (p.1 == s) = false by simp [hs], if_neg (fun he => hs he.symm)]
    rw [List.map_congr_left hstep]
    have hkey₀ : p.1 ∉ inner.map (fun q => q.1) := (List.nodup_cons.mp hkeys).1
    have hf0 : (alookup inner p.1).getD 0 = 0 := by
      rw [alookup_eq_none inner p.1 hkey₀]
      rfl
    rw [sum_update_at_key p.1 p.2 (fun s => (alookup inner s).getD 0) SS hnd
      (hcov p (List.mem_cons_self p inner)) hf0]
    rw [ih SS hnd (List.nodup_cons.mp hkeys).2
      (fun q hq => hcov q (List.mem_cons_of_mem p hq))]
    rw [List.map_cons, List.sum_cons]

/-- Core of the percent invariant: along a duplicate-free stack list covering
the bucket, the emitted percent values sum to `100`. -/
theorem sum_seriesValues (byX : List (String × List (String × ℚ))) (xVal : String)
    (SS : List String) (hnd : SS.Nodup)
    (hkeys : (((alookup byX xVal).getD []).map (fun p => p.1)).Nodup)
    (hcov : ∀ p ∈ (alookup byX xVal).getD [], p.1 ∈ SS)
    (hT : xTotalAt byX xVal > 0) :
    (SS.map (fun s => seriesValueAt byX xVal s true)).sum = 100 := by
  have hTne : xTotalAt byX xVal ≠ 0 := ne_of_gt hT
  have hval : ∀ s ∈ SS, seriesValueAt byX xVal s true
      = (alookup ((alookup byX xVal).getD []) s).getD 0 * (100 / xTotalAt byX xVal) := by
    intro s _
    unfold seriesValueAt
    rw [if_pos ⟨rfl, hT⟩]
    have hcount : ((alookup byX xVal).bind (fun inn => alookup inn s)).getD 0
        = (alookup ((alookup byX xVal).getD []) s).getD 0 := by
      cases h : alookup byX xVal with
      | none => simp [alookup]
      | some inner0 => simp
    rw [hcount, div_mul_eq_mul_div, mul_div_assoc]
  rw [List.map_congr_left hval, List.sum_map_mul_right]
  rw [sum_lookup_eq_sum ((alookup byX xVal).getD []) SS hnd hkeys hcov]
  have hxt : ((((alookup byX xVal).getD []).map (fun p => p.2)).sum) = xTotalAt byX xVal := rfl
  rw [hxt]
  field_simp

/-- The rows of the percent counterexample and witness: one x bucket `a`
holding counts `1` for stacks `A` and `B`. -/
def percentRows : List Row :=
  [⟨[("x", "a"), ("s", "A")], 1⟩, ⟨[("x", "a"), ("s", "B")], 1⟩]

/-- A percent config whose external `stackOrder` misses stack `B`. -/
def percentCfgPartial : CrossTabConfig :=
  ⟨"x", "s", [], "percent", ["A"], []⟩

/-- The same config without an external stack order. -/
def percentCfgFull : CrossTabConfig :=
  ⟨"x", "s", [], "percent", [], []⟩

/-- C3, counterexample: with an externally supplied `stackOrder` that omits a
stack present in the data, the emitted values of a bucket with positive total
sum to `50`, not `100`: bucket `a` has total `2`, but only stack `A` (count
`1`, emitted `50`) is in the emission order. -/
theorem percentSum_counterexample :
    xTotalAt (buildByX (buildSummed (crossTabFilterRows percentRows
        percentCfgPartial.filterVars []) percentCfgPartial.xVar percentCfgPartial.stackVar)) "a"
      > 0 ∧
    ((orderedStackOf percentCfgPartial (buildSummed (crossTabFilterRows percentRows
        percentCfgPartial.filterVars []) percentCfgPartial.xVar percentCfgPartial.stackVar)).map
      (fun s => seriesValueAt (buildByX (buildSummed (crossTabFilterRows percentRows
        percentCfgPartial.filterVars []) percentCfgPartial.xVar percentCfgPartial.stackVar))
        "a" s (percentCfgPartial.stackedType == "percent"))).sum ≠ 100 := by
  have hsummed : buildSummed (crossTabFilterRows percentRows percentCfgPartial.filterVars [])
      percentCfgPartial.xVar percentCfgPartial.stackVar
      = [("a|||A", ⟨"a", "A", 1⟩), ("a|||B", ⟨"a", "B", 1⟩)] := rfl
  have hbyx : buildByX [("a|||A", (⟨"a", "A", 1⟩ : SummedItem)), ("a|||B", ⟨"a", "B", 1⟩)]
      = [("a", [("A", 1), ("B", 1)])] := rfl
  have hT : xTotalAt [("a", [("A", (1 : ℚ)), ("B", 1)])] "a" = 2 := by
    unfold xTotalAt
    norm_num [alookup, List.find?]
  have hos : orderedStackOf percentCfgPartial (buildSummed (crossTabFilterRows percentRows
      percentCfgPartial.filterVars []) percentCfgPartial.xVar percentCfgPartial.stackVar)
      = ["A"] := rfl
  have hval : seriesValueAt [("a", [("A", (1 : ℚ)), ("B", 1)])] "a" "A" true = 50 := by
    unfold seriesValueAt
    rw [hT]
    rw [if_pos ⟨rfl, by norm_num⟩]
    norm_num [alookup, List.find?]
  constructor
  · rw [hsummed, hbyx, hT]
    norm_num
  · rw [hos, hsummed, hbyx]
    have hpc : (percentCfgPartial.stackedType == "percent") = true := rfl
    rw [hpc, List.map_singleton, hval]
    norm_num

/-- C3 (amended): in percent mode, for every set of input rows and filter
selections, and every x bucket whose aggregated total is positive, the
emitted series values of that bucket sum to exactly `100` (in rational
arithmetic) over any duplicate-free emitted stack list that covers the
bucket's stacks; in particular this always holds when no external
`stackOrder` is supplied, since the default order is the duplicate-free list
of all encountered stack values. An external `stackOrder` missing one of the
bucket's stacks breaks the identity. -/
theorem percentStackSum (rows : List Row) (filters : List (String × List String))
    (cfg : CrossTabConfig) (xVal : String) (hp : cfg.stackedType = "percent") :
    ((orderedStackOf cfg (buildSummed (crossTabFilterRows rows cfg.filterVars filters)
        cfg.xVar cfg.stackVar)).Nodup →
      (∀ p ∈ (alookup (buildByX (buildSummed (crossTabFilterRows rows cfg.filterVars filters)
          cfg.xVar cfg.stackVar)) xVal).getD [],
        p.1 ∈ orderedStackOf cfg (buildSummed (crossTabFilterRows rows cfg.filterVars filters)
          cfg.xVar cfg.stackVar)) →
      xTotalAt (buildByX (buildSummed (crossTabFilterRows rows cfg.filterVars filters)
        cfg.xVar cfg.stackVar)) xVal > 0 →
      ((orderedStackOf cfg (buildSummed (crossTabFilterRows rows cfg.filterVars filters)
          cfg.xVar cfg.stackVar)).map
        (fun s => seriesValueAt (buildByX (buildSummed (crossTabFilterRows rows cfg.filterVars
          filters) cfg.xVar cfg.stackVar)) xVal s (cfg.stackedType == "percent"))).sum = 100) ∧
    (cfg.stackOrder = [] →
      xTotalAt (buildByX (buildSummed (crossTabFilterRows rows cfg.filterVars filters)
        cfg.xVar cfg.stackVar)) xVal > 0 →
      ((orderedStackOf cfg (buildSummed (crossTabFilterRows rows cfg.filterVars filters)
          cfg.xVar cfg.stackVar)).map
        (fun s => seriesValueAt (buildByX (buildSummed (crossTabFilterRows rows cfg.filterVars
          filters) cfg.xVar cfg.stackVar)) xVal s (cfg.stackedType == "percent"))).sum = 100) := by
  have hpc : (cfg.stackedType == "percent") = true := by simp [hp]
  have hkeysnd : ∀ inner, alookup (buildByX (buildSummed (crossTabFilterRows rows
      cfg.filterVars filters) cfg.xVar cfg.stackVar)) xVal = some inner →
      (inner.map (fun p => p.1)).Nodup := fun inner h =>
    buildByX_inner_nodup _ xVal inner h
  have hinnernd : (((alookup (buildByX (buildSummed (crossTabFilterRows rows cfg.filterVars
      filters) cfg.xVar cfg.stackVar)) xVal).getD []).map (fun p => p.1)).Nodup := by
    cases h : alookup (buildByX (buildSummed (crossTabFilterRows rows cfg.filterVars filters)
        cfg.xVar cfg.stackVar)) xVal with
    | none => simp
    | some inner => exact hkeysnd inner h
  constructor
  · intro hnd hcov hT
    rw [hpc]
    exact sum_seriesValues _ xVal _ hnd hinnernd hcov hT
  · intro hso hT
    rw [hpc]
    have hosdef : orderedStackOf cfg (buildSummed (crossTabFilterRows rows cfg.filterVars
        filters) cfg.xVar cfg.stackVar)
        = dedupFirst ((buildSummed (crossTabFilterRows rows cfg.filterVars filters)
            cfg.xVar cfg.stackVar).map (fun kv => kv.2.stackVal)) := by
      unfold orderedStackOf
      rw [hso]
      rfl
    rw [hosdef]
    apply sum_seriesValues _ xVal _ (dedupFirst_nodup _) hinnernd _ hT
    intro p hp
    rw [mem_dedupFirst]
    cases h : alookup (buildByX (buildSummed (crossTabFilterRows rows cfg.filterVars filters)
        cfg.xVar cfg.stackVar)) xVal with
    | none =>
      rw [h] at hp
      cases hp
    | some inner =>
      rw [h] at hp
      exact buildByX_inner_keys _ xVal inner h p hp

/-- C3, witness: the amended theorem at the two-stack bucket with no external
stack order: the emitted percent values sum to `100`. -/
theorem percentStackSum_witness :
    ((orderedStackOf percentCfgFull (buildSummed (crossTabFilterRows percentRows
        percentCfgFull.filterVars []) percentCfgFull.xVar percentCfgFull.stackVar)).map
      (fun s => seriesValueAt (buildByX (buildSummed (crossTabFilterRows percentRows
        percentCfgFull.filterVars []) percentCfgFull.xVar percentCfgFull.stackVar))
        "a" s (percentCfgFull.stackedType == "percent"))).sum = 100 :=
  (percentStackSum percentRows [] percentCfgFull "a" rfl).2 rfl (by
    have hsummed : buildSummed (crossTabFilterRows percentRows percentCfgFull.filterVars [])
        percentCfgFull.xVar percentCfgFull.stackVar
        = [("a|||A", ⟨"a", "A", 1⟩), ("a|||B", ⟨"a", "B", 1⟩)] := rfl
    rw [hsummed]
    have hbyx : buildByX [("a|||A", (⟨"a", "A", 1⟩ : SummedItem)), ("a|||B", ⟨"a", "B", 1⟩)]
        = [("a", [("A", 1), ("B", 1)])] := rfl
    rw [hbyx]
    unfold xTotalAt
    norm_num [alookup, List.find?])

/-! Claim C10: reset idempotence. -/

/-- Re-resetting an already-reset entry rewrites the same values: the reset
only depends on the default and on fields it never changes. -/
theorem resetEntry_idem (dfl : DefaultValue) (s : ControlState) (dom : DomState) :
    resetEntry dfl (resetEntry dfl s dom).1 (resetEntry dfl s dom).2 = resetEntry dfl s dom := by
  unfold resetEntry
  cases hty : s.inputType <;> cases dfl <;> cases dom <;>
    (try simp only [hty]) <;>
    first
      | rfl
      | (rw [List.map_map]; rfl)

/-- The value of the registry at one id after `resetFilters`. -/
def resetAt (dfl : String → Option DefaultValue) (targets : List String)
    (reg : Registry) (id : String) : Option ControlState × Option DomState :=
  match dfl id, reg.1 id, reg.2 id with
  | some d, some s, some dom =>
    if id ∈ targets then (some (resetEntry d s dom).1, some (resetEntry d s dom).2)
    else (reg.1 id, reg.2 id)
  | _, _, _ => (reg.1 id, reg.2 id)

/-- Pointwise characterization of `resetFilters`: each targeted, resolvable
id is reset from its default, everything else is untouched. -/
theorem resetFilters_char (dfl : String → Option DefaultValue) :
    ∀ (targets : List String) (reg : Registry) (id : String),
      ((resetFilters targets dfl reg).1 id, (resetFilters targets dfl reg).2 id)
        = resetAt dfl targets reg id := by
  intro targets
  induction targets with
  | nil =>
    intro reg id
    unfold resetFilters resetAt
    rw [List.foldl_nil]
    cases dfl id <;> cases reg.1 id <;> cases reg.2 id <;> simp
  | cons t ts ih =>
    intro reg id
    unfold resetFilters at ih ⊢
    rw [List.foldl_cons]
    cases hA : dfl t with
    | none =>
      rw [ih]
      unfold resetAt
      dsimp only []
      by_cases hid : id = t
      · subst hid
        rw [hA]
      · cases hB : dfl id <;> cases reg.1 id <;> cases reg.2 id <;>
          simp [List.mem_cons, hid]
    | some d =>
      cases hB : reg.1 t with
      | none =>
        rw [ih]
        unfold resetAt
        dsimp only []
        by_cases hid : id = t
        · subst hid
          rw [hA, hB]
        · cases dfl id <;> cases reg.1 id <;> cases reg.2 id <;>
            simp [List.mem_cons, hid]
      | some s =>
        cases hC : reg.2 t with
        | none =>
          rw [ih]
          unfold resetAt
          dsimp only []
          by_cases hid : id = t
          · subst hid
            rw [hA, hB, hC]
          · cases dfl id <;> cases reg.1 id <;> cases reg.2 id <;>
              simp [List.mem_cons, hid]
        | some dom =>
          rw [ih]
          unfold resetAt
          dsimp only []
          by_cases hid : id = t
          · subst hid
            rw [hA, hB, hC]
            simp only [eq_self_iff_true, if_true]
            try dsimp only []
            rw [resetEntry_idem]
            rw [if_pos (List.mem_cons.mpr (Or.inl rfl))]
            rw [ite_self]
          · simp only [if_neg hid]
            cases hB2 : dfl id <;> cases hC2 : reg.1 id <;> cases hD2 : reg.2 id <;>
              simp [List.mem_cons, hid]

/-- `resetAt` is stable on a registry that already holds reset values. -/
theorem resetAt_stable (dfl : String → Option DefaultValue) (targets : List String)
    (reg reg' : Registry) (id : String)
    (h : (reg'.1 id, reg'.2 id) = resetAt dfl targets reg id) :
    resetAt dfl targets reg' id = resetAt dfl targets reg id := by
  unfold resetAt at h ⊢
  revert h
  cases dfl id with
  | none => intro h; exact h
  | some d =>
    cases reg.1 id with
    | none =>
      intro h
      have h1 : reg'.1 id = none := congrArg Prod.fst h
      have h2 : reg'.2 id = reg.2 id := congrArg Prod.snd h
      rw [h1, h2]
    | some s =>
      cases reg.2 id with
      | none =>
        intro h
        have h1 : reg'.1 id = some s := congrArg Prod.fst h
        have h2 : reg'.2 id = none := congrArg Prod.snd h
        rw [h1, h2]
      | some dom =>
        intro h
        dsimp only [] at h
        by_cases hmem : id ∈ targets
        · rw [if_pos hmem] at h
          have h1 : reg'.1 id = some (resetEntry d s dom).1 := congrArg Prod.fst h
          have h2 : reg'.2 id = some (resetEntry d s dom).2 := congrArg Prod.snd h
          rw [h1, h2]
          dsimp only []
          rw [if_pos hmem, if_pos hmem, resetEntry_idem]
        · rw [if_neg hmem] at h
          have h1 : reg'.1 id = some s := congrArg Prod.fst h
          have h2 : reg'.2 id = some dom := congrArg Prod.snd h
          rw [h1, h2]

/-- C10: `resetFilters` is idempotent: for every target set, every table of
defaults and every registry (control states and DOM controls), resetting
twice produces exactly the registry produced by resetting once. -/
theorem resetFilters_idempotent (targets : List String)
    (defaultValues : String → Option DefaultValue) (reg : Registry) :
    resetFilters targets defaultValues (resetFilters targets defaultValues reg)
      = resetFilters targets defaultValues reg := by
  have hpt : ∀ id,
      ((resetFilters targets defaultValues (resetFilters targets defaultValues reg)).1 id,
       (resetFilters targets defaultValues (resetFilters targets defaultValues reg)).2 id)
        = ((resetFilters targets defaultValues reg).1 id,
           (resetFilters targets defaultValues reg).2 id) := by
    intro id
    rw [resetFilters_char defaultValues targets (resetFilters targets defaultValues reg) id,
      resetFilters_char defaultValues targets reg id]
    exact resetAt_stable defaultValues targets reg (resetFilters targets defaultValues reg) id
      (resetFilters_char defaultValues targets reg id)
  have h1 : (resetFilters targets defaultValues (resetFilters targets defaultValues reg)).1
      = (resetFilters targets defaultValues reg).1 := by
    funext id
    exact congrArg Prod.fst (hpt id)
  have h2 : (resetFilters targets defaultValues (resetFilters targets defaultValues reg)).2
      = (resetFilters targets defaultValues reg).2 := by
    funext id
    exact congrArg Prod.snd (hpt id)
  exact Prod.ext h1 h2

/-! Claim C9 development: generic fold and association-list helpers. -/

theorem foldl_skip_inert {α β : Type} (f : α → β → α) (e : β)
    (h : ∀ a, f a e = a) (A B : List β) (i : α) :
    List.foldl f i (A ++ e :: B) = List.foldl f i (A ++ B) := by
  rw [List.foldl_append, List.foldl_append, List.foldl_cons, h]

theorem foldl_fn_ext {α β : Type} (f g : α → β → α) (h : ∀ a b, f a b = g a b)
    (l : List β) (i : α) : List.foldl f i l = List.foldl g i l := by
  have hfg : f = g := funext fun a => funext fun b => h a b
  rw [hfg]

theorem alookup_append_middle_ne {α : Type} (A B : List (String × α)) (fv k : String)
    (x : α) (h : k ≠ fv) :
    alookup (A ++ (fv, x) :: B) k = alookup (A ++ B) k := by
  unfold alookup
  have hcons : List.find? (fun p => p.1 == k) (((fv, x) : String × α) :: B)
      = List.find? (fun p => p.1 == k) B :=
    List.find?_cons_of_neg _ (fun hc => h (beq_iff_eq.mp hc).symm)
  rw [List.find?_append, List.find?_append, hcons]

theorem alookup_append_middle_self {α : Type} (A B : List (String × α)) (fv : String)
    (x : α) (h : fv ∉ A.map (fun p => p.1)) :
    alookup (A ++ (fv, x) :: B) fv = some x := by
  unfold alookup
  have hcons : List.find? (fun p => p.1 == fv) (((fv, x) : String × α) :: B)
      = some (fv, x) :=
    List.find?_cons_of_pos _ (beq_iff_eq.mpr rfl)
  rw [List.find?_append, hcons,
    List.find?_eq_none.mpr (fun p hp hc => h (List.mem_map.mpr ⟨p, hp, beq_iff_eq.mp hc⟩))]
  rfl

theorem upsert_fresh_append {α : Type} (l : List (String × α)) (k : String) (v : α)
    (h : k ∉ l.map (fun p => p.1)) : upsert l k v = l ++ [(k, v)] := by
  unfold upsert
  rw [if_neg]
  intro hc
  rw [List.any_eq_true] at hc
  obtain ⟨p, hp, hpk⟩ := hc
  exact h (List.mem_map.mpr ⟨p, hp, beq_iff_eq.mp hpk⟩)

theorem upsert_insert_middle {α : Type} (A B : List (String × α)) (fv v : String)
    (x w : α) (hne : v ≠ fv) :
    ∃ A2 B2, upsert (A ++ (fv, x) :: B) v w = A2 ++ (fv, x) :: B2
      ∧ upsert (A ++ B) v w = A2 ++ B2 := by
  unfold upsert
  have hb : ((fv, x).1 == v) = false := by
    rw [beq_eq_false_iff_ne]
    exact fun he => hne he.symm
  have hcond : (A ++ (fv, x) :: B).any (fun p => p.1 == v) = (A ++ B).any (fun p => p.1 == v) := by
    rw [List.any_append, List.any_append, List.any_cons, hb]
    rw [Bool.false_or]
  rw [hcond]
  by_cases hmem : (A ++ B).any (fun p => p.1 == v) = true
  · refine ⟨A.map (fun p => if p.1 == v then (v, w) else p),
      B.map (fun p => if p.1 == v then (v, w) else p), ?_, ?_⟩
    · rw [if_pos hmem, List.map_append, List.map_cons, hb]
      rfl
    · rw [if_pos hmem, List.map_append]
  · refine ⟨A, B ++ [(v, w)], ?_, ?_⟩
    · rw [if_neg hmem, List.append_assoc, List.cons_append]
    · rw [if_neg hmem, List.append_assoc]

/-- The fold step of `buildFilterMaps`, named for the C9 induction. -/
def bfmStep (m : FilterMaps) (kv : String × ControlState) : FilterMaps :=
  let state := kv.2
  match state.inputType with
  | InputType.slider =>
    let info : SliderInfo :=
      ⟨state.nval, state.min, state.max, (if state.step = 0 then 1 else state.step), state.labels⟩
    { m with sliderFilters := upsert m.sliderFilters state.filterVar info }
  | InputType.switch =>
    { m with switchFilters := upsert m.switchFilters state.filterVar state.bval }
  | InputType.text =>
    if state.sval.trim ≠ "" then
      { m with textFilters := upsert m.textFilters state.filterVar (jsToLower state.sval.trim) }
    else m
  | InputType.number =>
    { m with numberFilters := upsert m.numberFilters state.filterVar state.nval }
  | _ =>
    if state.filterVar = "period" then
      { m with periodFilters := upsert m.periodFilters state.filterVar state.selected }
    else
      { m with filters := upsert m.filters state.filterVar state.selected }

theorem buildFilterMaps_eq_foldl (c : List (String × ControlState)) :
    buildFilterMaps c = List.foldl bfmStep {} c := rfl

/-- `m₁` is `m₂` with an extra empty binding for the fresh variable `fv`
inserted somewhere in the discrete filter map. -/
def filtersInsRel (fv : String) (m₁ m₂ : FilterMaps) : Prop :=
  (∃ A B, m₁.filters = A ++ ((fv, ([] : List String)) :: B) ∧ m₂.filters = A ++ B
    ∧ fv ∉ (A ++ B).map (fun p => p.1))
  ∧ m₁.sliderFilters = m₂.sliderFilters
  ∧ m₁.switchFilters = m₂.switchFilters
  ∧ m₁.textFilters = m₂.textFilters
  ∧ m₁.numberFilters = m₂.numberFilters
  ∧ m₁.periodFilters = m₂.periodFilters

/-- `m₁` is `m₂` with an extra empty `period` binding inserted somewhere in
the period filter map. -/
def periodInsRel (m₁ m₂ : FilterMaps) : Prop :=
  m₁.filters = m₂.filters
  ∧ m₁.sliderFilters = m₂.sliderFilters
  ∧ m₁.switchFilters = m₂.switchFilters
  ∧ m₁.textFilters = m₂.textFilters
  ∧ m₁.numberFilters = m₂.numberFilters
  ∧ (∃ A B, m₁.periodFilters = A ++ (("period", ([] : List String)) :: B)
      ∧ m₂.periodFilters = A ++ B
      ∧ ("period" : String) ∉ (A ++ B).map (fun p => p.1))

theorem bfmStep_preserves_ins (fv : String) (kv : String × ControlState)
    (hk : kv.2.filterVar ≠ fv) (m₁ m₂ : FilterMaps) (h : filtersInsRel fv m₁ m₂) :
    filtersInsRel fv (bfmStep m₁ kv) (bfmStep m₂ kv) := by
  obtain ⟨⟨A, B, hf₁, hf₂, hfv⟩, hsl, hsw, htx, hnum, hpd⟩ := h
  unfold bfmStep
  dsimp only []
  cases kv.2.inputType
  case slider =>
    exact ⟨⟨A, B, hf₁, hf₂, hfv⟩, by rw [hsl], hsw, htx, hnum, hpd⟩
  case switch =>
    exact ⟨⟨A, B, hf₁, hf₂, hfv⟩, hsl, by rw [hsw], htx, hnum, hpd⟩
  case text =>
    dsimp only []
    split
    · exact ⟨⟨A, B, hf₁, hf₂, hfv⟩, hsl, hsw, by rw [htx], hnum, hpd⟩
    · exact ⟨⟨A, B, hf₁, hf₂, hfv⟩, hsl, hsw, htx, hnum, hpd⟩
  case number =>
    exact ⟨⟨A, B, hf₁, hf₂, hfv⟩, hsl, hsw, htx, by rw [hnum], hpd⟩
  all_goals dsimp only []
  all_goals by_cases hp : kv.2.filterVar = "period"
  all_goals first
    | (rw [if_pos hp, if_pos hp]
       exact ⟨⟨A, B, hf₁, hf₂, hfv⟩, hsl, hsw, htx, hnum, by rw [hpd]⟩)
    | (rw [if_neg hp, if_neg hp]
       rw [hf₁, hf₂]
       obtain ⟨A2, B2, h1, h2⟩ :=
         upsert_insert_middle A B fv kv.2.filterVar ([] : List String) kv.2.selected hk
       refine ⟨⟨A2, B2, h1, h2, ?_⟩, hsl, hsw, htx, hnum, hpd⟩
       have hkeys := upsert_keys (A ++ B) kv.2.filterVar kv.2.selected
       rw [h2] at hkeys
       rw [hkeys]
       split
       · exact hfv
       · intro hmem
         rcases List.mem_append.mp hmem with hmem | hmem
         · exact hfv hmem
         · exact hk (List.mem_singleton.mp hmem).symm)

theorem bfmStep_preserves_pins (kv : String × ControlState)
    (hk : kv.2.filterVar ≠ "period") (m₁ m₂ : FilterMaps) (h : periodInsRel m₁ m₂) :
    periodInsRel (bfmStep m₁ kv) (bfmStep m₂ kv) := by
  obtain ⟨hfil, hsl, hsw, htx, hnum, ⟨A, B, hp₁, hp₂, hpw⟩⟩ := h
  unfold bfmStep
  dsimp only []
  cases kv.2.inputType
  case slider =>
    exact ⟨hfil, by rw [hsl], hsw, htx, hnum, A, B, hp₁, hp₂, hpw⟩
  case switch =>
    exact ⟨hfil, hsl, by rw [hsw], htx, hnum, A, B, hp₁, hp₂, hpw⟩
  case text =>
    dsimp only []
    split
    · exact ⟨hfil, hsl, hsw, by rw [htx], hnum, A, B, hp₁, hp₂, hpw⟩
    · exact ⟨hfil, hsl, hsw, htx, hnum, A, B, hp₁, hp₂, hpw⟩
  case number =>
    exact ⟨hfil, hsl, hsw, htx, by rw [hnum], hnum ▸ ⟨A, B, hp₁, hp₂, hpw⟩⟩
  all_goals dsimp only []
  all_goals rw [if_neg hk, if_neg hk]
  all_goals exact ⟨by rw [hfil], hsl, hsw, htx, hnum, A, B, hp₁, hp₂, hpw⟩

theorem bfmStep_filters_keys (k : String) (m : FilterMaps) (kv : String × ControlState)
    (hk : kv.2.filterVar ≠ k) (h : k ∉ m.filters.map (fun p => p.1)) :
    k ∉ ((bfmStep m kv).filters).map (fun p => p.1) := by
  unfold bfmStep
  dsimp only []
  cases kv.2.inputType
  case text =>
    dsimp only []
    split
    · exact h
    · exact h
  all_goals dsimp only []
  all_goals try exact h
  all_goals split
  all_goals try exact h
  all_goals rw [upsert_keys]
  all_goals split
  all_goals try exact h
  all_goals intro hmem
  all_goals rcases List.mem_append.mp hmem with hmem | hmem
  all_goals first
    | exact h hmem
    | exact hk (List.mem_singleton.mp hmem).symm

theorem bfmStep_period_keys (k : String) (m : FilterMaps) (kv : String × ControlState)
    (hk : kv.2.filterVar ≠ k) (h : k ∉ m.periodFilters.map (fun p => p.1)) :
    k ∉ ((bfmStep m kv).periodFilters).map (fun p => p.1) := by
  unfold bfmStep
  dsimp only []
  cases kv.2.inputType
  case text =>
    dsimp only []
    split
    · exact h
    · exact h
  all_goals dsimp only []
  all_goals try exact h
  all_goals split
  all_goals try exact h
  all_goals rw [upsert_keys]
  all_goals split
  all_goals try exact h
  all_goals intro hmem
  all_goals rcases List.mem_append.mp hmem with hmem | hmem
  all_goals first
    | exact h hmem
    | exact hk (List.mem_singleton.mp hmem).symm

theorem foldl_bfm_ins (fv : String) :
    ∀ (c : List (String × ControlState)) (m₁ m₂ : FilterMaps),
      (∀ kv ∈ c, kv.2.filterVar ≠ fv) → filtersInsRel fv m₁ m₂ →
      filtersInsRel fv (c.foldl bfmStep m₁) (c.foldl bfmStep m₂)
  | [], _, _, _, h => h
  | kv :: c, m₁, m₂, hfr, h => by
    rw [List.foldl_cons, List.foldl_cons]
    exact foldl_bfm_ins fv c _ _ (fun k hk => hfr k (List.mem_cons_of_mem kv hk))
      (bfmStep_preserves_ins fv kv (hfr kv (List.mem_cons_self kv c)) m₁ m₂ h)

theorem foldl_bfm_pins :
    ∀ (c : List (String × ControlState)) (m₁ m₂ : FilterMaps),
      (∀ kv ∈ c, kv.2.filterVar ≠ "period") → periodInsRel m₁ m₂ →
      periodInsRel (c.foldl bfmStep m₁) (c.foldl bfmStep m₂)
  | [], _, _, _, h => h
  | kv :: c, m₁, m₂, hfr, h => by
    rw [List.foldl_cons, List.foldl_cons]
    exact foldl_bfm_pins c _ _ (fun k hk => hfr k (List.mem_cons_of_mem kv hk))
      (bfmStep_preserves_pins kv (hfr kv (List.mem_cons_self kv c)) m₁ m₂ h)

theorem foldl_bfm_filters_keys (k : String) :
    ∀ (c : List (String × ControlState)) (m : FilterMaps),
      (∀ kv ∈ c, kv.2.filterVar ≠ k) → k ∉ m.filters.map (fun p => p.1) →
      k ∉ ((c.foldl bfmStep m).filters).map (fun p => p.1)
  | [], _, _, h => h
  | kv :: c, m, hfr, h => by
    rw [List.foldl_cons]
    exact foldl_bfm_filters_keys k c _ (fun j hj => hfr j (List.mem_cons_of_mem kv hj))
      (bfmStep_filters_keys k m kv (hfr kv (List.mem_cons_self kv c)) h)

theorem foldl_bfm_period_keys (k : String) :
    ∀ (c : List (String × ControlState)) (m : FilterMaps),
      (∀ kv ∈ c, kv.2.filterVar ≠ k) → k ∉ m.periodFilters.map (fun p => p.1) →
      k ∉ ((c.foldl bfmStep m).periodFilters).map (fun p => p.1)
  | [], _, _, h => h
  | kv :: c, m, hfr, h => by
    rw [List.foldl_cons]
    exact foldl_bfm_period_keys k c _ (fun j hj => hfr j (List.mem_cons_of_mem kv hj))
      (bfmStep_period_keys k m kv (hfr kv (List.mem_cons_self kv c)) h)

theorem computeVisibleIdxs_ins (fv : String) (m₁ m₂ : FilterMaps)
    (h : filtersInsRel fv m₁ m₂) (oc : Option (List JSVal)) :
    computeVisibleIdxs oc m₁ = computeVisibleIdxs oc m₂ := by
  obtain ⟨⟨A, B, hf₁, hf₂, hfv⟩, hsl, hsw, htx, hnum, hpd⟩ := h
  unfold computeVisibleIdxs
  cases oc with
  | none => rfl
  | some cats =>
    dsimp only []
    rw [hpd, hsl, hf₁, hf₂, List.foldl_append, List.foldl_append, List.foldl_cons]
    congr 1

theorem computeVisibleIdxs_pins (m₁ m₂ : FilterMaps)
    (h : periodInsRel m₁ m₂) (oc : Option (List JSVal)) :
    computeVisibleIdxs oc m₁ = computeVisibleIdxs oc m₂ := by
  obtain ⟨hfil, hsl, hsw, htx, hnum, ⟨A, B, hp₁, hp₂, hpw⟩⟩ := h
  unfold computeVisibleIdxs
  cases oc with
  | none => rfl
  | some cats =>
    dsimp only []
    rw [hfil, hsl, hp₁, hp₂, List.foldl_append, List.foldl_append, List.foldl_cons]
    congr 2

theorem applyChartTypeStep_ins (fv : String) (A B : List (String × List String))
    (ser : List SeriesEntry) :
    applyChartTypeStep ser (A ++ ((fv, ([] : List String)) :: B)) = applyChartTypeStep ser (A ++ B) := by
  unfold applyChartTypeStep
  rw [List.foldl_append, List.foldl_append, List.foldl_cons]
  congr 1
  dsimp only []
  split
  · rfl
  · rfl

theorem seriesShouldShow_ins (fv : String) (m₁ m₂ : FilterMaps)
    (h : filtersInsRel fv m₁ m₂) (ns : List String) (n : String) :
    seriesShouldShow m₁ ns n = seriesShouldShow m₂ ns n := by
  obtain ⟨⟨A, B, hf₁, hf₂, hfv⟩, hsl, hsw, htx, hnum, hpd⟩ := h
  unfold seriesShouldShow
  dsimp only []
  rw [htx, hf₁, hf₂, List.foldl_append, List.foldl_append, List.foldl_cons]
  congr 1

theorem applyMetricStep_ins (g : Globals) (fv : String) (m₁ m₂ : FilterMaps)
    (h : filtersInsRel fv m₁ m₂) (oc : Option (List JSVal)) (ch : ChartState) :
    applyMetricStep g m₁ oc ch = applyMetricStep g m₂ oc ch := by
  obtain ⟨⟨A, B, hf₁, hf₂, hfv⟩, hsl, hsw, htx, hnum, hpd⟩ := h
  unfold applyMetricStep
  by_cases hm : fv = "metric"
  · subst hm
    have hA : ("metric" : String) ∉ A.map (fun p => p.1) := fun hmem => hfv (by
      rw [List.map_append]
      exact List.mem_append.mpr (Or.inl hmem))
    rw [hf₁, hf₂, alookup_append_middle_self A B "metric" ([] : List String) hA,
      alookup_eq_none (A ++ B) "metric" hfv]
    cases g.metricData <;> rfl
  · rw [hf₁, hf₂, alookup_append_middle_ne A B fv "metric" ([] : List String)
      (fun he => hm he.symm)]

theorem crossTabFilterRows_ins (fv : String) (A B : List (String × List String))
    (hfv : fv ∉ (A ++ B).map (fun p => p.1)) (data : List Row) (vars : List String) :
    crossTabFilterRows data vars (A ++ ((fv, ([] : List String)) :: B))
      = crossTabFilterRows data vars (A ++ B) := by
  unfold crossTabFilterRows
  refine foldl_fn_ext _ _ ?_ vars data
  intro acc v
  by_cases hv : v = fv
  · subst hv
    have hA : v ∉ A.map (fun p => p.1) := fun hmem => hfv (by
      rw [List.map_append]
      exact List.mem_append.mpr (Or.inl hmem))
    rw [alookup_append_middle_self A B v ([] : List String) hA,
      alookup_eq_none (A ++ B) v hfv]
    rfl
  · rw [alookup_append_middle_ne A B fv v ([] : List String) hv]

theorem rebuildFromCrossTab_filters_congr (chart : ChartState) (entry : CrossTabData)
    (f₁ f₂ : List (String × List String))
    (h : ∀ data vars, crossTabFilterRows data vars f₁ = crossTabFilterRows data vars f₂) :
    rebuildFromCrossTab chart entry f₁ = rebuildFromCrossTab chart entry f₂ := by
  unfold rebuildFromCrossTab
  cases hd : entry.data <;> cases hc : entry.config <;> try rfl
  dsimp only []
  rw [h]

theorem filterNumericData_slider_congr (m₁ m₂ : FilterMaps)
    (hsl : m₁.sliderFilters = m₂.sliderFilters) (d : List DataPoint) :
    filterNumericData m₁ d = filterNumericData m₂ d := by
  unfold filterNumericData
  rw [hsl]

theorem processSeriesEntry_congr (m₁ m₂ : FilterMaps) (ns : List String)
    (hsss : ∀ n, seriesShouldShow m₁ ns n = seriesShouldShow m₂ ns n)
    (hsl : m₁.sliderFilters = m₂.sliderFilters)
    (hidden shown : List String) (oc : Option (List JSVal)) (idxs : List Nat)
    (hnx : Bool) (e : SeriesEntry) :
    processSeriesEntry m₁ ns hidden shown oc idxs hnx e
      = processSeriesEntry m₂ ns hidden shown oc idxs hnx e := by
  unfold processSeriesEntry
  simp only [hsss, filterNumericData_slider_congr m₁ m₂ hsl]

theorem switchHiddenSeries_skip (c₁ c₂ : List (String × ControlState)) (id : String)
    (s : ControlState)
    (hty : s.inputType = InputType.select ∨ s.inputType = InputType.checkbox ∨
      s.inputType = InputType.radio ∨ s.inputType = InputType.button_group) :
    switchHiddenSeries (c₁ ++ (id, s) :: c₂) = switchHiddenSeries (c₁ ++ c₂) := by
  unfold switchHiddenSeries
  rw [List.foldl_append, List.foldl_append, List.foldl_cons]
  congr 1
  dsimp only []
  rcases hty with h | h | h | h <;> rw [h]
  all_goals rfl

theorem switchShownSeries_skip (c₁ c₂ : List (String × ControlState)) (id : String)
    (s : ControlState)
    (hty : s.inputType = InputType.select ∨ s.inputType = InputType.checkbox ∨
      s.inputType = InputType.radio ∨ s.inputType = InputType.button_group) :
    switchShownSeries (c₁ ++ (id, s) :: c₂) = switchShownSeries (c₁ ++ c₂) := by
  unfold switchShownSeries
  rw [List.foldl_append, List.foldl_append, List.foldl_cons]
  congr 1
  dsimp only []
  rcases hty with h | h | h | h <;> rw [h]
  all_goals rfl

theorem applyShowLegend_skip (c₁ c₂ : List (String × ControlState)) (id : String)
    (s : ControlState)
    (hty : s.inputType = InputType.select ∨ s.inputType = InputType.checkbox ∨
      s.inputType = InputType.radio ∨ s.inputType = InputType.button_group)
    (b : Bool) :
    applyShowLegend (c₁ ++ (id, s) :: c₂) b = applyShowLegend (c₁ ++ c₂) b := by
  unfold applyShowLegend
  rw [List.foldl_append, List.foldl_append, List.foldl_cons]
  congr 1
  dsimp only []
  rcases hty with h | h | h | h <;> rw [h]
  all_goals rfl

theorem survivingCats_congr (m₁ m₂ : FilterMaps)
    (h : ∀ oc, computeVisibleIdxs oc m₁ = computeVisibleIdxs oc m₂)
    (oc : Option (List JSVal)) :
    survivingCats oc m₁ = survivingCats oc m₂ := by
  unfold survivingCats
  cases oc with
  | none => rfl
  | some cats => rw [h]

theorem normalFilterChart_congr (g : Globals)
    (controls₁ controls₂ : List (String × ControlState)) (m₁ m₂ : FilterMaps)
    (hvis : ∀ oc, computeVisibleIdxs oc m₁ = computeVisibleIdxs oc m₂)
    (hcts : ∀ ser, applyChartTypeStep ser m₁.filters = applyChartTypeStep ser m₂.filters)
    (hmet : ∀ oc ch, applyMetricStep g m₁ oc ch = applyMetricStep g m₂ oc ch)
    (hsss : ∀ ns n, seriesShouldShow m₁ ns n = seriesShouldShow m₂ ns n)
    (hsl : m₁.sliderFilters = m₂.sliderFilters)
    (hhid : switchHiddenSeries controls₁ = switchHiddenSeries controls₂)
    (hshn : switchShownSeries controls₁ = switchShownSeries controls₂)
    (hleg : ∀ b, applyShowLegend controls₁ b = applyShowLegend controls₂ b)
    (chart : ChartState) :
    normalFilterChart g controls₁ m₁ chart = normalFilterChart g controls₂ m₂ chart := by
  have hps : ∀ ns hid sh oc idxs hnx e,
      processSeriesEntry m₁ ns hid sh oc idxs hnx e
        = processSeriesEntry m₂ ns hid sh oc idxs hnx e :=
    fun ns hid sh oc idxs hnx e =>
      processSeriesEntry_congr m₁ m₂ ns (hsss ns) hsl hid sh oc idxs hnx e
  have hps2 : processSeriesEntry m₁ = processSeriesEntry m₂ :=
    funext fun ns => funext fun hid => funext fun sh => funext fun oc =>
      funext fun idxs => funext fun hnx => funext fun e => hps ns hid sh oc idxs hnx e
  unfold normalFilterChart
  simp only [hvis, survivingCats_congr m₁ m₂ hvis, hcts, hmet, hps2, hhid, hshn, hleg]

theorem applyChart_congr (g : Globals)
    (controls₁ controls₂ : List (String × ControlState)) (m₁ m₂ : FilterMaps)
    (hvis : ∀ oc, computeVisibleIdxs oc m₁ = computeVisibleIdxs oc m₂)
    (hcts : ∀ ser, applyChartTypeStep ser m₁.filters = applyChartTypeStep ser m₂.filters)
    (hmet : ∀ oc ch, applyMetricStep g m₁ oc ch = applyMetricStep g m₂ oc ch)
    (hsss : ∀ ns n, seriesShouldShow m₁ ns n = seriesShouldShow m₂ ns n)
    (hsl : m₁.sliderFilters = m₂.sliderFilters)
    (hhid : switchHiddenSeries controls₁ = switchHiddenSeries controls₂)
    (hshn : switchShownSeries controls₁ = switchShownSeries controls₂)
    (hleg : ∀ b, applyShowLegend controls₁ b = applyShowLegend controls₂ b)
    (hct : ∀ ch entry, rebuildFromCrossTab ch entry m₁.filters
      = rebuildFromCrossTab ch entry m₂.filters)
    (chart : ChartState) :
    applyChart g controls₁ m₁ chart = applyChart g controls₂ m₂ chart := by
  unfold applyChart
  cases hcx : chart.crossTab with
  | none =>
    exact normalFilterChart_congr g controls₁ controls₂ m₁ m₂
      hvis hcts hmet hsss hsl hhid hshn hleg chart
  | some entry =>
    dsimp only []
    rw [hct chart entry]
    cases h2 : rebuildFromCrossTab chart entry m₂.filters with
    | some c1 => rfl
    | none =>
      exact normalFilterChart_congr g controls₁ controls₂ m₁ m₂
        hvis hcts hmet hsss hsl hhid hshn hleg chart

theorem bfmStep_discrete_period (m : FilterMaps) (id : String) (s : ControlState)
    (hty : s.inputType = InputType.select ∨ s.inputType = InputType.checkbox ∨
      s.inputType = InputType.radio ∨ s.inputType = InputType.button_group)
    (hp : s.filterVar = "period") (hsel : s.selected = [])
    (hpk : ("period" : String) ∉ m.periodFilters.map (fun p => p.1)) :
    bfmStep m (id, s)
      = { m with periodFilters := m.periodFilters ++ [(("period" : String), ([] : List String))] } := by
  unfold bfmStep
  dsimp only []
  rcases hty with h | h | h | h <;> rw [h]
  all_goals dsimp only []
  all_goals rw [if_pos hp, hp, hsel, upsert_fresh_append _ _ _ hpk]

theorem bfmStep_discrete_plain (m : FilterMaps) (id : String) (s : ControlState)
    (hty : s.inputType = InputType.select ∨ s.inputType = InputType.checkbox ∨
      s.inputType = InputType.radio ∨ s.inputType = InputType.button_group)
    (hp : s.filterVar ≠ "period") (hsel : s.selected = [])
    (hfk : s.filterVar ∉ m.filters.map (fun p => p.1)) :
    bfmStep m (id, s)
      = { m with filters := m.filters ++ [(s.filterVar, ([] : List String))] } := by
  unfold bfmStep
  dsimp only []
  rcases hty with h | h | h | h <;> rw [h]
  all_goals dsimp only []
  all_goals rw [if_neg hp, hsel, upsert_fresh_append _ _ _ hfk]

/-- C9 (amended): an empty selection on a discrete control (select, checkbox,
radio, button group) narrows nothing: filter application over any chart list
equals filter application with the control removed from the registry,
provided no other registered control is bound to the same filter variable
(two controls sharing one are written to the same dictionary slot, so a later
empty one erases the selection of an earlier one). -/
theorem emptyDiscreteFilterInactive (g : Globals)
    (c₁ c₂ : List (String × ControlState)) (id : String) (s : ControlState)
    (charts : List ChartState)
    (hty : s.inputType = InputType.select ∨ s.inputType = InputType.checkbox ∨
      s.inputType = InputType.radio ∨ s.inputType = InputType.button_group)
    (hsel : s.selected = [])
    (hfresh : ∀ kv ∈ c₁ ++ c₂, kv.2.filterVar ≠ s.filterVar) :
    applyAllFilters g (c₁ ++ (id, s) :: c₂) charts
      = applyAllFilters g (c₁ ++ c₂) charts := by
  have hfr₁ : ∀ kv ∈ c₁, kv.2.filterVar ≠ s.filterVar :=
    fun kv hk => hfresh kv (List.mem_append.mpr (Or.inl hk))
  have hfr₂ : ∀ kv ∈ c₂, kv.2.filterVar ≠ s.filterVar :=
    fun kv hk => hfresh kv (List.mem_append.mpr (Or.inr hk))
  have hm1 : buildFilterMaps (c₁ ++ (id, s) :: c₂)
      = List.foldl bfmStep (bfmStep (List.foldl bfmStep {} c₁) (id, s)) c₂ := by
    rw [buildFilterMaps_eq_foldl, List.foldl_append, List.foldl_cons]
  have hm2 : buildFilterMaps (c₁ ++ c₂)
      = List.foldl bfmStep (List.foldl bfmStep {} c₁) c₂ := by
    rw [buildFilterMaps_eq_foldl, List.foldl_append]
  have hhid := switchHiddenSeries_skip c₁ c₂ id s hty
  have hshn := switchShownSeries_skip c₁ c₂ id s hty
  have hleg := applyShowLegend_skip c₁ c₂ id s hty
  by_cases hp : s.filterVar = "period"
  · have hpk : ("period" : String)
        ∉ ((List.foldl bfmStep {} c₁).periodFilters).map (fun p => p.1) :=
      foldl_bfm_period_keys "period" c₁ {} (fun kv hk => hp ▸ hfr₁ kv hk)
        (List.not_mem_nil _)
    have hstep := bfmStep_discrete_period (List.foldl bfmStep {} c₁) id s hty hp hsel hpk
    have hbase : periodInsRel (bfmStep (List.foldl bfmStep {} c₁) (id, s))
        (List.foldl bfmStep {} c₁) := by
      rw [hstep]
      exact ⟨rfl, rfl, rfl, rfl, rfl, (List.foldl bfmStep {} c₁).periodFilters, [],
        rfl, (List.append_nil _).symm, by rw [List.append_nil]; exact hpk⟩
    have hrel := foldl_bfm_pins c₂ _ _ (fun kv hk => hp ▸ hfr₂ kv hk) hbase
    obtain ⟨hfil, hsl', hsw', htx', hnum', hex⟩ := hrel
    have hfun : applyChart g (c₁ ++ (id, s) :: c₂) (buildFilterMaps (c₁ ++ (id, s) :: c₂))
        = applyChart g (c₁ ++ c₂) (buildFilterMaps (c₁ ++ c₂)) := by
      funext chart
      rw [hm1, hm2]
      exact applyChart_congr g _ _ _ _
        (computeVisibleIdxs_pins _ _ ⟨hfil, hsl', hsw', htx', hnum', hex⟩)
        (fun ser => by rw [hfil])
        (fun oc ch => by unfold applyMetricStep; rw [hfil])
        (fun ns n => by unfold seriesShouldShow; rw [htx', hfil])
        hsl' hhid hshn hleg
        (fun ch entry => by rw [hfil])
        chart
    unfold applyAllFilters
    dsimp only []
    rw [hfun]
  · have hfk : s.filterVar ∉ ((List.foldl bfmStep {} c₁).filters).map (fun p => p.1) :=
      foldl_bfm_filters_keys s.filterVar c₁ {} hfr₁ (List.not_mem_nil _)
    have hstep := bfmStep_discrete_plain (List.foldl bfmStep {} c₁) id s hty hp hsel hfk
    have hbase : filtersInsRel s.filterVar (bfmStep (List.foldl bfmStep {} c₁) (id, s))
        (List.foldl bfmStep {} c₁) := by
      rw [hstep]
      exact ⟨⟨(List.foldl bfmStep {} c₁).filters, [], rfl, (List.append_nil _).symm,
        by rw [List.append_nil]; exact hfk⟩, rfl, rfl, rfl, rfl, rfl⟩
    have hrel := foldl_bfm_ins s.filterVar c₂ _ _ hfr₂ hbase
    obtain ⟨⟨A, B, hf₁, hf₂, hfv⟩, hsl', hsw', htx', hnum', hpd'⟩ := hrel
    have hfun : applyChart g (c₁ ++ (id, s) :: c₂) (buildFilterMaps (c₁ ++ (id, s) :: c₂))
        = applyChart g (c₁ ++ c₂) (buildFilterMaps (c₁ ++ c₂)) := by
      funext chart
      rw [hm1, hm2]
      exact applyChart_congr g _ _ _ _
        (computeVisibleIdxs_ins s.filterVar _ _ ⟨⟨A, B, hf₁, hf₂, hfv⟩, hsl', hsw', htx', hnum', hpd'⟩)
        (fun ser => by rw [hf₁, hf₂]; exact applyChartTypeStep_ins s.filterVar A B ser)
        (applyMetricStep_ins g s.filterVar _ _ ⟨⟨A, B, hf₁, hf₂, hfv⟩, hsl', hsw', htx', hnum', hpd'⟩)
        (seriesShouldShow_ins s.filterVar _ _ ⟨⟨A, B, hf₁, hf₂, hfv⟩, hsl', hsw', htx', hnum', hpd'⟩)
        hsl' hhid hshn hleg
        (fun ch entry => by
          rw [hf₁, hf₂]
          exact rebuildFromCrossTab_filters_congr ch entry _ _
            (fun data vars => crossTabFilterRows_ins s.filterVar A B hfv data vars))
        chart
    unfold applyAllFilters
    dsimp only []
    rw [hfun]

/-- Two series `A`, `B` on a category-less chart with no cross-tab entry. -/
def chartC9 : ChartState :=
  { crossTab := none, origCats := none, axisCats := none,
    series := [⟨⟨"A", "line", [], true, true⟩, none⟩, ⟨⟨"B", "line", [], true, true⟩, none⟩],
    title := "t", subtitle := "st", yTitle := "y", legendEnabled := true, redraws := 0 }

/-- A select on variable `grp` choosing `A`. -/
def ctrlC9A : ControlState :=
  { filterVar := "grp", inputType := InputType.select, selected := ["A"] }

/-- A second select on the same variable `grp` with nothing selected. -/
def ctrlC9empty : ControlState :=
  { filterVar := "grp", inputType := InputType.select, selected := [] }

def gC9 : Globals := ⟨none, none⟩

/-- C9, counterexample: with the empty-selection control present alongside a
control selecting `A` on the same variable, both series stay visible (the
empty selection overwrites the dictionary slot and deactivates the filter);
with the empty-selection control removed, series `B` is hidden. -/
theorem emptyDiscrete_counterexample :
    ((applyAllFilters gC9 [("c1", ctrlC9A), ("c2", ctrlC9empty)] [chartC9]).map
        (fun c => c.series.map (fun e => e.live.visible)) = [[true, true]])
    ∧ ((applyAllFilters gC9 [("c1", ctrlC9A)] [chartC9]).map
        (fun c => c.series.map (fun e => e.live.visible)) = [[true, false]]) := by
  constructor
  · rfl
  · rfl

/-- C9, witness: the amended theorem at the concrete empty select, which is a
no-op on the two-series chart. -/
theorem emptyDiscreteFilterInactive_witness :
    applyAllFilters gC9 [("c2", ctrlC9empty)] [chartC9]
      = applyAllFilters gC9 [] [chartC9] :=
  emptyDiscreteFilterInactive gC9 [] [] "c2" ctrlC9empty [chartC9]
    (Or.inl rfl) rfl (fun kv hkv => absurd hkv (List.not_mem_nil kv))

/-! Claim C1 development: stability of a second filter application. -/

theorem chartState_ext (a b : ChartState)
    (h1 : a.crossTab = b.crossTab) (h2 : a.origCats = b.origCats)
    (h3 : a.axisCats = b.axisCats) (h4 : a.series = b.series)
    (h5 : a.title = b.title) (h6 : a.subtitle = b.subtitle)
    (h7 : a.yTitle = b.yTitle) (h8 : a.legendEnabled = b.legendEnabled)
    (h9 : a.redraws = b.redraws) : a = b := by
  cases a
  cases b
  dsimp only [] at h1 h2 h3 h4 h5 h6 h7 h8 h9
  rw [h1, h2, h3, h4, h5, h6, h7, h8, h9]

theorem capture_crossTab (c : ChartState) :
    (if c.origCats.isNone ∧ c.axisCats.isSome then { c with origCats := c.axisCats } else c).crossTab
      = c.crossTab := by
  split <;> rfl

theorem capture_legend (c : ChartState) :
    (if c.origCats.isNone ∧ c.axisCats.isSome then { c with origCats := c.axisCats } else c).legendEnabled
      = c.legendEnabled := by
  split <;> rfl

theorem capture_title (c : ChartState) :
    (if c.origCats.isNone ∧ c.axisCats.isSome then { c with origCats := c.axisCats } else c).title
      = c.title := by
  split <;> rfl

theorem capture_subtitle (c : ChartState) :
    (if c.origCats.isNone ∧ c.axisCats.isSome then { c with origCats := c.axisCats } else c).subtitle
      = c.subtitle := by
  split <;> rfl

theorem capture_yTitle (c : ChartState) :
    (if c.origCats.isNone ∧ c.axisCats.isSome then { c with origCats := c.axisCats } else c).yTitle
      = c.yTitle := by
  split <;> rfl

theorem applyMetricStep_crossTab (g : Globals) (m : FilterMaps)
    (oc : Option (List JSVal)) (ch : ChartState) :
    (applyMetricStep g m oc ch).crossTab = ch.crossTab := by
  unfold applyMetricStep
  cases alookup m.filters "metric" <;> cases g.metricData <;> dsimp only [] <;> try rfl
  split <;> rfl

theorem applyMetricStep_legend (g : Globals) (m : FilterMaps)
    (oc : Option (List JSVal)) (ch : ChartState) :
    (applyMetricStep g m oc ch).legendEnabled = ch.legendEnabled := by
  unfold applyMetricStep
  cases alookup m.filters "metric" <;> cases g.metricData <;> dsimp only [] <;> try rfl
  split <;> rfl

/-- The metric title fragment: first selected metric value. -/
def metricName (m : FilterMaps) : String :=
  ((alookup m.filters "metric").getD []).headD ""

theorem applyMetricStep_title (g : Globals) (m : FilterMaps)
    (oc : Option (List JSVal)) (ch : ChartState) :
    (applyMetricStep g m oc ch).title
      = if metricActive g m = true then metricName m ++ " by Country" else ch.title := by
  unfold applyMetricStep metricActive metricName
  cases ha : alookup m.filters "metric" <;> cases hg : g.metricData <;> dsimp only [] <;> try rfl
  rename_i sv ad
  by_cases hs : sv.headD "" = ""
  · rw [if_neg (fun hne => hne hs),
      if_neg (by simp only [decide_eq_true_eq]; exact fun hne => hne hs)]
  · rw [if_pos hs, if_pos (by simp only [decide_eq_true_eq]; exact hs)]
    rfl

theorem applyMetricStep_subtitle (g : Globals) (m : FilterMaps)
    (oc : Option (List JSVal)) (ch : ChartState) :
    (applyMetricStep g m oc ch).subtitle
      = if metricActive g m = true then "Trends over time" else ch.subtitle := by
  unfold applyMetricStep metricActive
  cases ha : alookup m.filters "metric" <;> cases hg : g.metricData <;> dsimp only [] <;> try rfl
  rename_i sv ad
  by_cases hs : sv.headD "" = ""
  · rw [if_neg (fun hne => hne hs),
      if_neg (by simp only [decide_eq_true_eq]; exact fun hne => hne hs)]
  · rw [if_pos hs, if_pos (by simp only [decide_eq_true_eq]; exact hs)]

theorem applyMetricStep_yTitle (g : Globals) (m : FilterMaps)
    (oc : Option (List JSVal)) (ch : ChartState) :
    (applyMetricStep g m oc ch).yTitle
      = if metricActive g m = true then metricName m else ch.yTitle := by
  unfold applyMetricStep metricActive metricName
  cases ha : alookup m.filters "metric" <;> cases hg : g.metricData <;> dsimp only [] <;> try rfl
  rename_i sv ad
  by_cases hs : sv.headD "" = ""
  · rw [if_neg (fun hne => hne hs),
      if_neg (by simp only [decide_eq_true_eq]; exact fun hne => hne hs)]
  · rw [if_pos hs, if_pos (by simp only [decide_eq_true_eq]; exact hs)]
    rfl

/-- The per-series transform of the metric branch (lines 833-853). -/
def metricEntry (allData : List MetricRow) (selectedMetric : String)
    (timeVar : Option String) (timeValues : List JSVal) (e : SeriesEntry) : SeriesEntry :=
  match metricNewData allData selectedMetric timeVar timeValues e.live.name with
  | some newData => { live := { e.live with data := newData }, snap := some ⟨newData, e.live.name⟩ }
  | none => e

theorem applyMetricStep_series_eq (g : Globals) (m : FilterMaps)
    (oc : Option (List JSVal)) (ch : ChartState) :
    (applyMetricStep g m oc ch).series
      = match alookup m.filters "metric", g.metricData with
        | some sv, some allData =>
          if sv.headD "" ≠ "" then
            ch.series.map (metricEntry allData (sv.headD "") (detectTimeVar g allData)
              (metricTimeValues g allData oc))
          else ch.series
        | _, _ => ch.series := by
  unfold applyMetricStep metricEntry
  cases ha : alookup m.filters "metric" <;> cases hg : g.metricData <;> dsimp only [] <;> try rfl
  split <;> rfl

theorem normalFilterChart_crossTab (g : Globals) (c : List (String × ControlState))
    (m : FilterMaps) (ch : ChartState) :
    (normalFilterChart g c m ch).crossTab = ch.crossTab := by
  unfold normalFilterChart
  simp only [applyMetricStep_crossTab, capture_crossTab]

theorem normalFilterChart_legend (g : Globals) (c : List (String × ControlState))
    (m : FilterMaps) (ch : ChartState) :
    (normalFilterChart g c m ch).legendEnabled = applyShowLegend c ch.legendEnabled := by
  unfold normalFilterChart
  simp only [applyMetricStep_legend, capture_legend]

theorem normalFilterChart_title (g : Globals) (c : List (String × ControlState))
    (m : FilterMaps) (ch : ChartState) :
    (normalFilterChart g c m ch).title
      = if metricActive g m = true then metricName m ++ " by Country" else ch.title := by
  unfold normalFilterChart
  simp only [applyMetricStep_title, capture_title]

theorem normalFilterChart_subtitle (g : Globals) (c : List (String × ControlState))
    (m : FilterMaps) (ch : ChartState) :
    (normalFilterChart g c m ch).subtitle
      = if metricActive g m = true then "Trends over time" else ch.subtitle := by
  unfold normalFilterChart
  simp only [applyMetricStep_subtitle, capture_subtitle]

theorem normalFilterChart_yTitle (g : Globals) (c : List (String × ControlState))
    (m : FilterMaps) (ch : ChartState) :
    (normalFilterChart g c m ch).yTitle
      = if metricActive g m = true then metricName m else ch.yTitle := by
  unfold normalFilterChart
  simp only [applyMetricStep_yTitle, capture_yTitle]

theorem normalFilterChart_series_eq (g : Globals) (c : List (String × ControlState))
    (m : FilterMaps) (ch : ChartState) :
    (normalFilterChart g c m ch).series
      = (match alookup m.filters "metric", g.metricData with
          | some sv, some allData =>
            if sv.headD "" ≠ "" then
              (applyChartTypeStep ch.series m.filters).map (metricEntry allData (sv.headD "")
                (detectTimeVar g allData) (metricTimeValues g allData (ocOf ch)))
            else applyChartTypeStep ch.series m.filters
          | _, _ => applyChartTypeStep ch.series m.filters).map
          (processSeriesEntry m (ch.series.map (fun e : SeriesEntry => e.live.name))
            (switchHiddenSeries c) (switchShownSeries c) (ocOf ch)
            (computeVisibleIdxs (ocOf ch) m)
            ((ocOf ch).isNone && (match ch.series.head? with
              | some e0 => decide (e0.live.data.length > 0)
              | none => false))) := by
  unfold normalFilterChart
  simp only [ocOf_capture, capture_series, applyMetricStep_series_eq]

theorem ocOf_nfc (g : Globals) (c : List (String × ControlState))
    (m : FilterMaps) (ch : ChartState) :
    ocOf (normalFilterChart g c m ch) = ocOf ch := by
  cases hoc : ocOf ch with
  | some cats =>
    unfold ocOf
    rw [normalFilterChart_origCats, hoc]
  | none =>
    have hax : ch.axisCats = none := by
      unfold ocOf at hoc
      cases ho : ch.origCats with
      | some cats => rw [ho] at hoc; cases hoc
      | none => rw [ho] at hoc; exact hoc
    unfold ocOf
    rw [normalFilterChart_origCats, hoc, normalFilterChart_axisCats, hoc, hax]
    rfl

theorem applyShowLegend_cons (kv : String × ControlState)
    (c : List (String × ControlState)) (b : Bool) :
    applyShowLegend (kv :: c) b
      = applyShowLegend c
          (if kv.2.inputType = InputType.switch ∧ kv.2.filterVar = "show_legend"
           then kv.2.bval else b) := rfl

theorem applyShowLegend_pair :
    ∀ (c : List (String × ControlState)) (b₁ b₂ : Bool),
      applyShowLegend c b₁ = applyShowLegend c b₂
      ∨ (applyShowLegend c b₁ = b₁ ∧ applyShowLegend c b₂ = b₂)
  | [], _, _ => Or.inr ⟨rfl, rfl⟩
  | kv :: c, b₁, b₂ => by
    rw [applyShowLegend_cons, applyShowLegend_cons]
    by_cases hc : (kv.2.inputType = InputType.switch ∧ kv.2.filterVar = "show_legend")
    · rw [if_pos hc, if_pos hc]
      exact Or.inl rfl
    · rw [if_neg hc, if_neg hc]
      exact applyShowLegend_pair c b₁ b₂

theorem applyShowLegend_idem (c : List (String × ControlState)) (b : Bool) :
    applyShowLegend c (applyShowLegend c b) = applyShowLegend c b := by
  rcases applyShowLegend_pair c (applyShowLegend c b) b with h | ⟨h1, h2⟩
  · exact h
  · exact h1

/-- The per-series write of the chart-type step. -/
def typSet (t : String) (e : SeriesEntry) : SeriesEntry :=
  { e with live := { e.live with typ := t } }

theorem applyChartTypeStep_cons (l : List SeriesEntry) (kv : String × List String)
    (fil : List (String × List String)) :
    applyChartTypeStep l (kv :: fil)
      = applyChartTypeStep
          (if kv.1 == "chart_type" then
            if kv.2.headD "" ≠ "" then
              l.map (typSet (if kv.2.headD "" == "Line" then "line"
                else if kv.2.headD "" == "Area" then "area"
                else if kv.2.headD "" == "Column" then "column" else "line"))
            else l
          else l) fil := rfl

theorem applyChartTypeStep_shape :
    ∀ (fil : List (String × List String)),
      (∃ t, ∀ l : List SeriesEntry, applyChartTypeStep l fil = l.map (typSet t))
      ∨ (∀ l : List SeriesEntry, applyChartTypeStep l fil = l)
  | [] => Or.inr (fun _ => rfl)
  | kv :: fil => by
    have ih := applyChartTypeStep_shape fil
    by_cases hct : (kv.1 == "chart_type") = true
    · by_cases hne : kv.2.headD "" ≠ ""
      · rcases ih with ⟨t, ht⟩ | hid
        · refine Or.inl ⟨t, fun l => ?_⟩
          rw [applyChartTypeStep_cons, if_pos hct, if_pos hne, ht, List.map_map]
          apply List.map_congr_left
          intro e _
          rfl
        · refine Or.inl ⟨(if kv.2.headD "" == "Line" then "line"
            else if kv.2.headD "" == "Area" then "area"
            else if kv.2.headD "" == "Column" then "column" else "line"), fun l => ?_⟩
          rw [applyChartTypeStep_cons, if_pos hct, if_pos hne, hid]
      · rcases ih with ⟨t, ht⟩ | hid
        · exact Or.inl ⟨t, fun l => by
            rw [applyChartTypeStep_cons, if_pos hct, if_neg hne, ht]⟩
        · exact Or.inr (fun l => by
            rw [applyChartTypeStep_cons, if_pos hct, if_neg hne, hid])
    · rcases ih with ⟨t, ht⟩ | hid
      · exact Or.inl ⟨t, fun l => by rw [applyChartTypeStep_cons, if_neg hct, ht]⟩
      · exact Or.inr (fun l => by rw [applyChartTypeStep_cons, if_neg hct, hid])

theorem metricEntry_name (allData : List MetricRow) (sm : String) (tv : Option String)
    (tvs : List JSVal) (e : SeriesEntry) :
    (metricEntry allData sm tv tvs e).live.name = e.live.name := by
  unfold metricEntry
  split <;> rfl

theorem map_name_of_preserve (f : SeriesEntry → SeriesEntry)
    (hf : ∀ e, (f e).live.name = e.live.name) (l : List SeriesEntry) :
    (l.map f).map (fun e : SeriesEntry => e.live.name)
      = l.map (fun e : SeriesEntry => e.live.name) := by
  rw [List.map_map]
  apply List.map_congr_left
  intro e _
  exact hf e

theorem nfc_names (g : Globals) (c : List (String × ControlState))
    (m : FilterMaps) (ch : ChartState) :
    (normalFilterChart g c m ch).series.map (fun e : SeriesEntry => e.live.name)
      = ch.series.map (fun e : SeriesEntry => e.live.name) := by
  rw [normalFilterChart_series_eq]
  rw [map_name_of_preserve _ (processSeriesEntry_name m _ _ _ _ _ _)]
  have hacts : (applyChartTypeStep ch.series m.filters).map (fun e : SeriesEntry => e.live.name)
      = ch.series.map (fun e : SeriesEntry => e.live.name) := by
    rcases applyChartTypeStep_shape m.filters with ⟨t, ht⟩ | hid
    · rw [ht, map_name_of_preserve (typSet t) (fun e => rfl)]
    · rw [hid]
  cases ha : alookup m.filters "metric" <;> cases hg : g.metricData <;> dsimp only [] <;>
    try exact hacts
  split
  · rw [map_name_of_preserve _ (metricEntry_name _ _ _ _)]
    exact hacts
  · exact hacts

theorem metricEntry_typSet_comm (ad : List MetricRow) (sm : String) (tv : Option String)
    (tvs : List JSVal) (t : String) (x : SeriesEntry) :
    metricEntry ad sm tv tvs (typSet t x) = typSet t (metricEntry ad sm tv tvs x) := by
  unfold metricEntry typSet
  dsimp only []
  cases hnd : metricNewData ad sm tv tvs x.live.name <;> rfl

theorem processSeriesEntry_typSet_comm (m : FilterMaps) (ns hid shn : List String)
    (oc : Option (List JSVal)) (idxs : List Nat) (hnx : Bool) (t : String) (x : SeriesEntry) :
    processSeriesEntry m ns hid shn oc idxs hnx (typSet t x)
      = typSet t (processSeriesEntry m ns hid shn oc idxs hnx x) := by
  unfold processSeriesEntry typSet
  dsimp only []
  by_cases h1 : hid.contains x.live.name = true
  · rw [if_pos h1, if_pos h1]
  · rw [if_neg h1, if_neg h1]
    by_cases h2 : (shn.contains x.live.name || seriesShouldShow m ns x.live.name) = true
    · rw [if_pos h2, if_pos h2]
      cases hs : x.snap <;> cases oc <;> try rfl
      cases hnx <;> rfl
    · rw [if_neg h2, if_neg h2]

theorem processSeriesEntry_idem_cats (m : FilterMaps) (ns hid shn : List String)
    (cats : List JSVal) (idxs : List Nat) (hnx₁ hnx₂ : Bool) (e : SeriesEntry) :
    processSeriesEntry m ns hid shn (some cats) idxs hnx₂
        (processSeriesEntry m ns hid shn (some cats) idxs hnx₁ e)
      = processSeriesEntry m ns hid shn (some cats) idxs hnx₁ e := by
  unfold processSeriesEntry
  dsimp only []
  by_cases h1 : hid.contains e.live.name = true
  · rw [if_pos h1]
    dsimp only []
    rw [if_pos h1]
  · rw [if_neg h1]
    by_cases h2 : (shn.contains e.live.name || seriesShouldShow m ns e.live.name) = true
    · rw [if_pos h2]
      cases hs : e.snap with
      | some o =>
        dsimp only []
        rw [if_neg h1, if_pos h2]
      | none =>
        dsimp only []
        rw [if_neg h1, if_pos h2]
    · rw [if_neg h2]
      dsimp only []
      rw [if_neg h1, if_neg h2]

theorem processMetric_idem_cats (m : FilterMaps) (ns hid shn : List String)
    (cats : List JSVal) (idxs : List Nat) (hnx₁ hnx₂ : Bool) (ad : List MetricRow)
    (sm : String) (tv : Option String) (tvs : List JSVal) (e : SeriesEntry) :
    processSeriesEntry m ns hid shn (some cats) idxs hnx₂
        (metricEntry ad sm tv tvs
          (processSeriesEntry m ns hid shn (some cats) idxs hnx₁
            (metricEntry ad sm tv tvs e)))
      = processSeriesEntry m ns hid shn (some cats) idxs hnx₁
          (metricEntry ad sm tv tvs e) := by
  unfold processSeriesEntry metricEntry
  dsimp only []
  cases hnd : metricNewData ad sm tv tvs e.live.name with
  | some nd =>
    dsimp only []
    by_cases h1 : hid.contains e.live.name = true
    · rw [if_pos h1]
      dsimp only []
      rw [hnd]
      dsimp only []
      rw [if_pos h1]
    · rw [if_neg h1]
      by_cases h2 : (shn.contains e.live.name || seriesShouldShow m ns e.live.name) = true
      · rw [if_pos h2]
        dsimp only []
        rw [hnd]
        dsimp only []
        rw [if_neg h1, if_pos h2]
      · rw [if_neg h2]
        dsimp only []
        rw [hnd]
        dsimp only []
        rw [if_neg h1, if_neg h2]
  | none =>
    dsimp only []
    by_cases h1 : hid.contains e.live.name = true
    · rw [if_pos h1]
      dsimp only []
      rw [hnd]
      dsimp only []
      rw [if_pos h1]
    · rw [if_neg h1]
      by_cases h2 : (shn.contains e.live.name || seriesShouldShow m ns e.live.name) = true
      · rw [if_pos h2]
        cases hs : e.snap with
        | some o =>
          dsimp only []
          rw [hnd]
          dsimp only []
          rw [if_neg h1, if_pos h2]
        | none =>
          dsimp only []
          rw [hnd]
          dsimp only []
          rw [if_neg h1, if_pos h2]
      · rw [if_neg h2]
        dsimp only []
        rw [hnd]
        dsimp only []
        rw [if_neg h1, if_neg h2]

theorem processSeriesEntry_idem_nocats (m : FilterMaps) (ns hid shn : List String)
    (idxs : List Nat) (hnx₁ hnx₂ : Bool) (e : SeriesEntry)
    (h : hnx₁ = true ∨ hnx₂ = false) :
    processSeriesEntry m ns hid shn none idxs hnx₂
        (processSeriesEntry m ns hid shn none idxs hnx₁ e)
      = processSeriesEntry m ns hid shn none idxs hnx₁ e := by
  unfold processSeriesEntry
  dsimp only []
  by_cases h1 : hid.contains e.live.name = true
  · rw [if_pos h1]
    dsimp only []
    rw [if_pos h1]
  · rw [if_neg h1]
    by_cases h2 : (shn.contains e.live.name || seriesShouldShow m ns e.live.name) = true
    · rw [if_pos h2]
      cases hs : e.snap with
      | some o =>
        dsimp only []
        cases hnx₁ with
        | true =>
          rw [if_pos rfl]
          rw [if_neg h1, if_pos h2]
          dsimp only []
          cases hnx₂ with
          | true => rw [if_pos rfl]
          | false => rw [if_neg (fun hc => Bool.false_ne_true hc)]
        | false =>
          rcases h with h | h
          · cases h
          · subst h
            rw [if_neg (fun hc => Bool.false_ne_true hc)]
            rw [if_neg h1, if_pos h2]
            dsimp only []
            rw [if_neg (fun hc => Bool.false_ne_true hc)]
      | none =>
        dsimp only []
        rw [if_neg h1, if_pos h2]
    · rw [if_neg h2]
      dsimp only []
      rw [if_neg h1, if_neg h2]

theorem typSet_idem (t : String) (x : SeriesEntry) :
    typSet t (typSet t x) = typSet t x := rfl

theorem idemA_nometric (m : FilterMaps) (ns hid shn : List String) (cats : List JSVal)
    (idxs : List Nat) (b₁ b₂ : Bool) (S : List SeriesEntry) :
    (applyChartTypeStep
        ((applyChartTypeStep S m.filters).map
          (processSeriesEntry m ns hid shn (some cats) idxs b₁)) m.filters).map
      (processSeriesEntry m ns hid shn (some cats) idxs b₂)
      = (applyChartTypeStep S m.filters).map
          (processSeriesEntry m ns hid shn (some cats) idxs b₁) := by
  rcases applyChartTypeStep_shape m.filters with ⟨t, ht⟩ | hid2
  · rw [ht, ht]
    simp only [List.map_map]
    apply List.map_congr_left
    intro x _
    simp only [Function.comp]
    simp only [processSeriesEntry_typSet_comm, typSet_idem]
    rw [processSeriesEntry_idem_cats]
  · rw [hid2, hid2]
    rw [List.map_map]
    apply List.map_congr_left
    intro x _
    simp only [Function.comp]
    rw [processSeriesEntry_idem_cats]

theorem idemA_metric (m : FilterMaps) (ns hid shn : List String) (cats : List JSVal)
    (idxs : List Nat) (b₁ b₂ : Bool) (ad : List MetricRow) (sm : String)
    (tv : Option String) (tvs : List JSVal) (S : List SeriesEntry) :
    ((applyChartTypeStep
        (((applyChartTypeStep S m.filters).map (metricEntry ad sm tv tvs)).map
          (processSeriesEntry m ns hid shn (some cats) idxs b₁)) m.filters).map
        (metricEntry ad sm tv tvs)).map
      (processSeriesEntry m ns hid shn (some cats) idxs b₂)
      = ((applyChartTypeStep S m.filters).map (metricEntry ad sm tv tvs)).map
          (processSeriesEntry m ns hid shn (some cats) idxs b₁) := by
  rcases applyChartTypeStep_shape m.filters with ⟨t, ht⟩ | hid2
  · rw [ht, ht]
    simp only [List.map_map]
    apply List.map_congr_left
    intro x _
    simp only [Function.comp]
    simp only [metricEntry_typSet_comm, processSeriesEntry_typSet_comm, typSet_idem]
    rw [processMetric_idem_cats]
  · rw [hid2, hid2]
    simp only [List.map_map]
    apply List.map_congr_left
    intro x _
    simp only [Function.comp]
    rw [processMetric_idem_cats]

theorem nfc_series_inactive (g : Globals) (c : List (String × ControlState))
    (m : FilterMaps) (ch : ChartState) (hm : metricActive g m = false) :
    (normalFilterChart g c m ch).series
      = (applyChartTypeStep ch.series m.filters).map
          (processSeriesEntry m (ch.series.map (fun e : SeriesEntry => e.live.name))
            (switchHiddenSeries c) (switchShownSeries c) (ocOf ch)
            (computeVisibleIdxs (ocOf ch) m)
            ((ocOf ch).isNone && (match ch.series.head? with
              | some e0 => decide (e0.live.data.length > 0)
              | none => false))) := by
  rw [normalFilterChart_series_eq]
  unfold metricActive at hm
  cases ha : alookup m.filters "metric" <;> cases hg : g.metricData <;> dsimp only [] <;> try rfl
  rw [ha, hg] at hm
  dsimp only [] at hm
  rw [decide_eq_false_iff_not] at hm
  rw [if_neg hm]

theorem processSeriesEntry_data_nochange (m : FilterMaps) (ns hid shn : List String)
    (idxs : List Nat) (e : SeriesEntry) :
    (processSeriesEntry m ns hid shn none idxs false e).live.data = e.live.data := by
  unfold processSeriesEntry
  dsimp only []
  by_cases h1 : hid.contains e.live.name = true
  · rw [if_pos h1]
  · rw [if_neg h1]
    by_cases h2 : (shn.contains e.live.name || seriesShouldShow m ns e.live.name) = true
    · rw [if_pos h2]
      cases hs : e.snap with
      | some o =>
        dsimp only []
        rw [if_neg (fun hc => Bool.false_ne_true hc)]
      | none => rfl
    · rw [if_neg h2]

/-- The `hasNumericXAxis` probe on a series list: a nonempty first data array. -/
def headTest (S : List SeriesEntry) : Bool :=
  match S.head? with
  | some e0 => decide (e0.live.data.length > 0)
  | none => false

theorem headTest_eq (S : List SeriesEntry) :
    (match S.head? with
      | some e0 => decide (e0.live.data.length > 0)
      | none => false) = headTest S := rfl

theorem idemB_pointwise (m : FilterMaps) (ns hid shn : List String) (idxs : List Nat)
    (b₁ b₂ : Bool) (S : List SeriesEntry) (h : b₁ = true ∨ b₂ = false) :
    (applyChartTypeStep
        ((applyChartTypeStep S m.filters).map
          (processSeriesEntry m ns hid shn none idxs b₁)) m.filters).map
      (processSeriesEntry m ns hid shn none idxs b₂)
      = (applyChartTypeStep S m.filters).map
          (processSeriesEntry m ns hid shn none idxs b₁) := by
  rcases applyChartTypeStep_shape m.filters with ⟨t, ht⟩ | hid2
  · rw [ht, ht]
    simp only [List.map_map]
    apply List.map_congr_left
    intro x _
    simp only [Function.comp]
    simp only [processSeriesEntry_typSet_comm, typSet_idem]
    rw [processSeriesEntry_idem_nocats _ _ _ _ _ _ _ _ h]
  · rw [hid2, hid2]
    rw [List.map_map]
    apply List.map_congr_left
    intro x _
    simp only [Function.comp]
    rw [processSeriesEntry_idem_nocats _ _ _ _ _ _ _ _ h]

theorem headTest_stable (m : FilterMaps) (ns hid shn : List String) (idxs : List Nat)
    (S : List SeriesEntry) :
    headTest ((applyChartTypeStep S m.filters).map
      (processSeriesEntry m ns hid shn none idxs false)) = headTest S := by
  rcases applyChartTypeStep_shape m.filters with ⟨t, ht⟩ | hid2
  · rw [ht]
    cases S with
    | nil => rfl
    | cons e0 S2 =>
      unfold headTest
      simp only [List.map_cons, List.head?_cons]
      rw [processSeriesEntry_data_nochange]
      rfl
  · rw [hid2]
    cases S with
    | nil => rfl
    | cons e0 S2 =>
      unfold headTest
      simp only [List.map_cons, List.head?_cons]
      rw [processSeriesEntry_data_nochange]

theorem nfc_series_idem_cats (g : Globals) (c : List (String × ControlState))
    (m : FilterMaps) (ch : ChartState) (cats : List JSVal) (hoc : ocOf ch = some cats) :
    (normalFilterChart g c m (normalFilterChart g c m ch)).series
      = (normalFilterChart g c m ch).series := by
  rw [normalFilterChart_series_eq g c m (normalFilterChart g c m ch), ocOf_nfc, nfc_names,
    headTest_eq]
  generalize ((ocOf ch).isNone && headTest (normalFilterChart g c m ch).series) = b₂
  rw [normalFilterChart_series_eq g c m ch, headTest_eq]
  generalize ((ocOf ch).isNone && headTest ch.series) = b₁
  rw [hoc]
  cases ha : alookup m.filters "metric" <;> cases hg : g.metricData <;> dsimp only [] <;>
    try exact idemA_nometric m _ _ _ cats _ b₁ b₂ ch.series
  rename_i sv ad
  by_cases hsm : sv.headD "" ≠ ""
  · rw [if_pos hsm, if_pos hsm]
    exact idemA_metric m _ _ _ cats _ b₁ b₂ ad (sv.headD "") (detectTimeVar g ad)
      (metricTimeValues g ad (some cats)) ch.series
  · rw [if_neg hsm, if_neg hsm]
    exact idemA_nometric m _ _ _ cats _ b₁ b₂ ch.series

theorem nfc_series_idem_nocats (g : Globals) (c : List (String × ControlState))
    (m : FilterMaps) (ch : ChartState) (hoc : ocOf ch = none)
    (hm : metricActive g m = false) :
    (normalFilterChart g c m (normalFilterChart g c m ch)).series
      = (normalFilterChart g c m ch).series := by
  rw [nfc_series_inactive g c m (normalFilterChart g c m ch) hm, ocOf_nfc, nfc_names,
    headTest_eq]
  rw [nfc_series_inactive g c m ch hm, headTest_eq, hoc]
  simp only [Option.isNone_none, Bool.true_and]
  cases hb : headTest ch.series with
  | false =>
    rw [headTest_stable m _ _ _ _ ch.series, hb]
    exact idemB_pointwise m _ _ _ _ false false ch.series (Or.inr rfl)
  | true =>
    exact idemB_pointwise m _ _ _ _ true _ ch.series (Or.inl rfl)

theorem normalFilterChart_idem (g : Globals) (c : List (String × ControlState))
    (m : FilterMaps) (ch : ChartState)
    (h : (ocOf ch).isSome = true ∨ metricActive g m = false) :
    normalFilterChart g c m (normalFilterChart g c m ch)
      = { normalFilterChart g c m ch with
          redraws := (normalFilterChart g c m ch).redraws + 1 } := by
  apply chartState_ext
  · rw [normalFilterChart_crossTab, normalFilterChart_crossTab]
  · rw [normalFilterChart_origCats, normalFilterChart_origCats, ocOf_nfc]
  · rw [normalFilterChart_axisCats, ocOf_nfc]
    by_cases hC : (ocOf ch).isSome = true ∧ (survivingCats (ocOf ch) m).length > 0
    · rw [if_pos hC]
      show _ = (normalFilterChart g c m ch).axisCats
      rw [normalFilterChart_axisCats, if_pos hC]
    · rw [if_neg hC]
  · cases hoc : ocOf ch with
    | some cats => exact nfc_series_idem_cats g c m ch cats hoc
    | none =>
      rcases h with h | hm
      · rw [hoc] at h
        cases h
      · exact nfc_series_idem_nocats g c m ch hoc hm
  · rw [normalFilterChart_title]
    by_cases hma : metricActive g m = true
    · rw [if_pos hma]
      show _ = (normalFilterChart g c m ch).title
      rw [normalFilterChart_title, if_pos hma]
    · rw [if_neg hma]
  · rw [normalFilterChart_subtitle]
    by_cases hma : metricActive g m = true
    · rw [if_pos hma]
      show _ = (normalFilterChart g c m ch).subtitle
      rw [normalFilterChart_subtitle, if_pos hma]
    · rw [if_neg hma]
  · rw [normalFilterChart_yTitle]
    by_cases hma : metricActive g m = true
    · rw [if_pos hma]
      show _ = (normalFilterChart g c m ch).yTitle
      rw [normalFilterChart_yTitle, if_pos hma]
    · rw [if_neg hma]
  · rw [normalFilterChart_legend, normalFilterChart_legend, applyShowLegend_idem]
  · rw [normalFilterChart_redraws]

/-- The series slot a rebuild write lands in: match by name first, else by
position when in range. -/
def targetOf (names : List String) (p : Nat × String) : Option Nat :=
  match names.findIdx? (fun n => n == p.2) with
  | some i => some i
  | none => if p.1 < names.length then some p.1 else none

/-- Overwrite the displayed data of a series entry. -/
def setData (d : List DataPoint) (e : SeriesEntry) : SeriesEntry :=
  { e with live := { e.live with data := d } }

theorem rebuildStep_eq (names : List String) (dataFor : String → List DataPoint)
    (seriesList : List SeriesEntry) (p : Nat × String) :
    rebuildStep names dataFor seriesList p
      = match targetOf names p with
        | some i =>
          match seriesList.get? i with
          | some e => seriesList.set i (setData (dataFor p.2) e)
          | none => seriesList
        | none => seriesList := rfl

/-- The stack value of the last rebuild write landing on slot `j`. -/
def lw (names : List String) : List (Nat × String) → Nat → Option String
  | [], _ => none
  | p :: rest, j =>
    match lw names rest j with
    | some sv => some sv
    | none => if targetOf names p = some j then some p.2 else none

theorem lw_cons (names : List String) (p : Nat × String) (rest : List (Nat × String))
    (j : Nat) :
    lw names (p :: rest) j
      = match lw names rest j with
        | some sv => some sv
        | none => if targetOf names p = some j then some p.2 else none := rfl

theorem setData_setData (d d2 : List DataPoint) (e : SeriesEntry) :
    setData d (setData d2 e) = setData d e := rfl

theorem get?_set_self {α : Type} : ∀ (l : List α) (i : Nat) (x : α),
    (l.set i x).get? i = (l.get? i).map (fun _ => x)
  | [], _, _ => rfl
  | _ :: _, 0, _ => rfl
  | a :: l, i + 1, x => by
    rw [List.set_cons_succ]
    show (l.set i x).get? i = (l.get? i).map (fun _ => x)
    exact get?_set_self l i x

theorem get?_set_other {α : Type} : ∀ (l : List α) (i j : Nat) (x : α), j ≠ i →
    (l.set i x).get? j = l.get? j
  | [], _, _, _, _ => rfl
  | a :: l, 0, 0, x, h => absurd rfl h
  | a :: l, 0, j + 1, x, _ => rfl
  | a :: l, i + 1, 0, x, _ => rfl
  | a :: l, i + 1, j + 1, x, h => by
    rw [List.set_cons_succ]
    show (l.set i x).get? j = l.get? j
    exact get?_set_other l i j x (fun he => h (congrArg Nat.succ he))

theorem step_get_overwrite (names : List String) (dataFor : String → List DataPoint)
    (s : List SeriesEntry) (p : Nat × String) (j : Nat) (d : List DataPoint) :
    ((rebuildStep names dataFor s p).get? j).map (setData d)
      = (s.get? j).map (setData d) := by
  rw [rebuildStep_eq]
  cases ht : targetOf names p with
  | none => rfl
  | some i =>
    dsimp only []
    cases he : s.get? i with
    | none => rfl
    | some e =>
      dsimp only []
      by_cases hij : j = i
      · subst hij
        rw [get?_set_self, he]
        rfl
      · rw [get?_set_other s i j _ hij]

theorem rebuildSteps_get? (names : List String) (dataFor : String → List DataPoint) :
    ∀ (plan : List (Nat × String)) (s : List SeriesEntry) (j : Nat),
    (plan.foldl (rebuildStep names dataFor) s).get? j
      = match lw names plan j with
        | some sv => (s.get? j).map (setData (dataFor sv))
        | none => s.get? j
  | [], _, _ => rfl
  | p :: rest, s, j => by
    rw [List.foldl_cons, rebuildSteps_get? names dataFor rest (rebuildStep names dataFor s p) j,
      lw_cons]
    cases hlw : lw names rest j with
    | some sv =>
      dsimp only []
      exact step_get_overwrite names dataFor s p j (dataFor sv)
    | none =>
      dsimp only []
      rw [rebuildStep_eq]
      cases ht : targetOf names p with
      | none =>
        rw [if_neg (fun hc => Option.noConfusion hc)]
      | some i =>
        dsimp only []
        by_cases hij : i = j
        · subst hij
          rw [if_pos rfl]
          cases he : s.get? i with
          | none =>
            dsimp only []
            rw [he]
            rfl
          | some e =>
            dsimp only []
            rw [get?_set_self, he]
            rfl
        · rw [if_neg (fun hc => hij (Option.some.inj hc))]
          cases he : s.get? i with
          | none => rfl
          | some e =>
            dsimp only []
            rw [get?_set_other s i j _ (fun he2 => hij he2.symm)]

theorem rebuildSteps_idem (names : List String) (dataFor : String → List DataPoint)
    (plan : List (Nat × String)) (s : List SeriesEntry) :
    plan.foldl (rebuildStep names dataFor) (plan.foldl (rebuildStep names dataFor) s)
      = plan.foldl (rebuildStep names dataFor) s := by
  apply List.ext_get?
  intro j
  rw [rebuildSteps_get?, rebuildSteps_get?]
  cases hlw : lw names plan j with
  | none => rfl
  | some sv =>
    dsimp only []
    cases he : s.get? j <;> rfl

theorem rebuildStep_names (names : List String) (dataFor : String → List DataPoint)
    (seriesList : List SeriesEntry) (p : Nat × String) :
    (rebuildStep names dataFor seriesList p).map (fun e : SeriesEntry => e.live.name)
      = seriesList.map (fun e : SeriesEntry => e.live.name) := by
  rw [rebuildStep_eq]
  cases ht : targetOf names p with
  | none => rfl
  | some i =>
    dsimp only []
    cases he : seriesList.get? i with
    | none => rfl
    | some e =>
      dsimp only []
      rw [List.map_set]
      apply set_get?_eq
      rw [List.get?_map, he]
      rfl

theorem rebuildSteps_names (names : List String) (dataFor : String → List DataPoint) :
    ∀ (plan : List (Nat × String)) (seriesList : List SeriesEntry),
    ((plan.foldl (rebuildStep names dataFor) seriesList).map (fun e : SeriesEntry => e.live.name))
      = seriesList.map (fun e : SeriesEntry => e.live.name)
  | [], _ => rfl
  | p :: plan, l => by
    rw [List.foldl_cons, rebuildSteps_names names dataFor plan _, rebuildStep_names]

theorem rebuildFromCrossTab_crossTab (chart : ChartState) (crossTabEntry : CrossTabData)
    (filters : List (String × List String)) (c1 : ChartState)
    (h : rebuildFromCrossTab chart crossTabEntry filters = some c1) :
    c1.crossTab = chart.crossTab := by
  unfold rebuildFromCrossTab at h
  cases hd : crossTabEntry.data with
  | none => rw [hd] at h; cases h
  | some data =>
    cases hc : crossTabEntry.config with
    | none => rw [hd, hc] at h; cases h
    | some config =>
      rw [hd, hc] at h
      dsimp only [] at h
      cases h
      rfl

theorem rebuildFromCrossTab_none_any (chart ch2 : ChartState) (crossTabEntry : CrossTabData)
    (filters : List (String × List String))
    (h : rebuildFromCrossTab chart crossTabEntry filters = none) :
    rebuildFromCrossTab ch2 crossTabEntry filters = none := by
  unfold rebuildFromCrossTab at h ⊢
  cases hd : crossTabEntry.data with
  | none => rfl
  | some data =>
    cases hc : crossTabEntry.config with
    | none => rfl
    | some config =>
      rw [hd, hc] at h
      dsimp only [] at h
      cases h

theorem rebuildFromCrossTab_idem (chart : ChartState) (crossTabEntry : CrossTabData)
    (filters : List (String × List String)) (c1 : ChartState)
    (h : rebuildFromCrossTab chart crossTabEntry filters = some c1) :
    rebuildFromCrossTab c1 crossTabEntry filters
      = some { c1 with redraws := c1.redraws + 1 } := by
  unfold rebuildFromCrossTab at h ⊢
  cases hd : crossTabEntry.data with
  | none => rw [hd] at h; cases h
  | some data =>
    cases hc : crossTabEntry.config with
    | none => rw [hd, hc] at h; cases h
    | some config =>
      rw [hd, hc] at h
      dsimp only [] at h ⊢
      injection h with h1
      subst h1
      dsimp only []
      rw [rebuildSteps_names, rebuildSteps_idem]

/-- C1 (amended): filter application is stable under a second run — for every
chart that either has captured categories or has no active metric filter, a
second application with the same control states returns the first result
unchanged except for one further redraw (hence identical visible categories
and identical per-series displayed data). On a category-less chart with an
active metric filter the claim fails: the numeric-x-axis probe reads the live
data of the first series, which the first run rewrites. -/
theorem applyChart_idempotent (g : Globals) (controls : List (String × ControlState))
    (m : FilterMaps) (chart : ChartState)
    (h : (ocOf chart).isSome = true ∨ metricActive g m = false) :
    applyChart g controls m (applyChart g controls m chart)
      = { applyChart g controls m chart with
          redraws := (applyChart g controls m chart).redraws + 1 } := by
  unfold applyChart
  cases hcx : chart.crossTab with
  | none =>
    dsimp only []
    have h2 : (normalFilterChart g controls m chart).crossTab = none := by
      rw [normalFilterChart_crossTab, hcx]
    rw [h2]
    dsimp only []
    rw [normalFilterChart_idem g controls m chart h]
    dsimp only []
    rw [h2]
  | some entry =>
    dsimp only []
    cases hreb : rebuildFromCrossTab chart entry m.filters with
    | some c1 =>
      dsimp only []
      have h2 : c1.crossTab = some entry := by
        rw [rebuildFromCrossTab_crossTab chart entry m.filters c1 hreb, hcx]
      rw [h2]
      dsimp only []
      rw [rebuildFromCrossTab_idem chart entry m.filters c1 hreb]
      dsimp only []
      rw [h2]
    | none =>
      dsimp only []
      have h2 : (normalFilterChart g controls m chart).crossTab = some entry := by
        rw [normalFilterChart_crossTab, hcx]
      rw [h2]
      dsimp only []
      rw [rebuildFromCrossTab_none_any chart (normalFilterChart g controls m chart)
        entry m.filters hreb]
      dsimp only []
      rw [normalFilterChart_idem g controls m chart h]
      dsimp only []
      rw [h2]

/-- A category-less chart with two series and captured snapshots: `S0` holds
one point object with `x = 0`, `S1` one bare number. -/
def chartC1 : ChartState :=
  { crossTab := none, origCats := none, axisCats := none,
    series := [⟨⟨"S0", "line", [DataPoint.obj (some 0) (some 7)], true, true⟩,
                 some ⟨[DataPoint.obj (some 0) (some 7)], "S0"⟩⟩,
               ⟨⟨"S1", "line", [DataPoint.num 1], true, true⟩,
                 some ⟨[DataPoint.num 1], "S1"⟩⟩],
    title := "", subtitle := "", yTitle := "", legendEnabled := true, redraws := 0 }

/-- A metric table with a row for `S1` in 2020 and an unrelated row in 2021. -/
def gC1 : Globals :=
  ⟨some [⟨"S1", "m", [("year", ⟨"2020", some 2020⟩)], 3⟩,
         ⟨"QQ", "m2", [("year", ⟨"2021", some 2021⟩)], 9⟩], none⟩

/-- A metric select choosing `m` plus a slider at 5. -/
def ctrlC1 : List (String × ControlState) :=
  [("sel", { filterVar := "metric", inputType := InputType.select, selected := ["m"] }),
   ("sl", { filterVar := "s", inputType := InputType.slider, nval := 5, min := 0,
            max := 10, step := 1 })]

def mC1 : FilterMaps := buildFilterMaps ctrlC1

/-- C1, counterexample: with an active metric filter on a category-less chart,
the first run rebuilds `S1` to `[3, null]` along the metric time axis and the
slider then drops the `null` (the first series' live data is nonempty, so the
numeric-x-axis branch runs); the second run sees the first series' data
emptied by run one, skips the numeric-x filtering, and displays `[3, null]` —
the two runs show different data for `S1`. -/
theorem filterPurity_counterexample :
    ((applyChart gC1 ctrlC1 mC1 chartC1).series.map (fun e => e.live.data)
        = [[], [DataPoint.num 3]])
    ∧ ((applyChart gC1 ctrlC1 mC1 (applyChart gC1 ctrlC1 mC1 chartC1)).series.map
          (fun e => e.live.data)
        = [[], [DataPoint.num 3, DataPoint.null]]) := by
  constructor
  · rfl
  · rfl

/-- C1, witness: the amended theorem at the same chart with no controls (no
metric active), where the second run is the first plus one redraw. -/
theorem applyChart_idempotent_witness :
    applyChart gC1 [] (buildFilterMaps []) (applyChart gC1 [] (buildFilterMaps []) chartC1)
      = { applyChart gC1 [] (buildFilterMaps []) chartC1 with
          redraws := (applyChart gC1 [] (buildFilterMaps []) chartC1).redraws + 1 } :=
  applyChart_idempotent gC1 [] (buildFilterMaps []) chartC1 (Or.inr rfl)

end Dashboardr
